import Mathlib

/-!
Verification of the slime-wasm-tribute water simulation.

The simulation core lives in `src/main.cpp` (field, two-pass stepper, edit
operations, tool state machine), with bounds predicates in `src/platform.h`,
mouse state in `src/mouse.cpp` and button state in `src/button.h`.  This file
embeds those parts shallowly: the `uint8_t field[320][200]` array becomes a
function `Nat → Nat → Nat` updated through `setCell`; the C loops become
`List.foldl` over `List.range`, preserving iteration order exactly (the
in-place update order is load-bearing); the imported JavaScript function
`random_int(max)` becomes an arbitrary oracle `rand : Nat → Nat` consumed
as `rand k % max`, with the call counter `k` threaded exactly as the C code
sequences its calls.  Mouse coordinates are `Int` (the C `int`).  Cell values
stay `Nat`: every value the program ever writes is at most 100, so `uint8_t`
wrap-around is unreachable and plain naturals are faithful.  The DDA line
walker's `float` accumulator is modelled with exact rational arithmetic and
C-style truncation toward zero.
-/

set_option maxRecDepth 8000

namespace Slime

-- ===========================================================================
-- Constants (platform.h)
-- ===========================================================================

def SCREEN_WIDTH : Nat := 320
def SCREEN_HEIGHT : Nat := 200
def FIELD_WIDTH : Nat := 300
def FIELD_HEIGHT : Nat := 200
def SIDEBAR_X : Nat := 300
def WALL_VALUE : Nat := 99
def MAX_WATER : Nat := 97
def DRAIN_VALUE : Nat := 100
def RAIN_PROBABILITY : Nat := 100
def WATER_SPAWN_AMOUNT : Nat := 5
def ERASER_SIZE : Nat := 5
def WATER_ADD_RADIUS : Nat := 4
def DENSITY_FLOW : Nat := 2

-- ===========================================================================
-- Field representation
-- ===========================================================================

/-- The simulation grid `uint8_t field[SCREEN_WIDTH][SCREEN_HEIGHT]`,
as a function from coordinates to the stored cell value. -/
abbrev Field := Nat → Nat → Nat

/-- A single array store `field[x][y] = v`. -/
def setCell (f : Field) (x y : Nat) (v : Nat) : Field :=
  fun a b => if a = x ∧ b = y then v else f a b

-- ===========================================================================
-- Bounds predicates (platform.h)
-- ===========================================================================

/-- `inField` from platform.h: inside the playable field, border included. -/
def inField (x y : Int) : Bool :=
  0 ≤ x && x < (FIELD_WIDTH : Int) && 0 ≤ y && y < (FIELD_HEIGHT : Int)

/-- `inFieldInterior` from platform.h: strictly inside the one-cell border. -/
def inFieldInterior (x y : Int) : Bool :=
  0 < x && x < (FIELD_WIDTH : Int) - 1 && 0 < y && y < (FIELD_HEIGHT : Int) - 1

/-- `inScreen` from platform.h. -/
def inScreen (x y : Int) : Bool :=
  0 ≤ x && x < (SCREEN_WIDTH : Int) && 0 ≤ y && y < (SCREEN_HEIGHT : Int)

-- ===========================================================================
-- Line walking (main.cpp walkLine): DDA stepper.
-- The float accumulator is modelled with exact rationals; `static_cast<int>`
-- truncates toward zero, which `ratTrunc` reproduces.
-- ===========================================================================

/-- C truncation of a real value toward zero (`static_cast<int>`). -/
def ratTrunc (q : ℚ) : Int :=
  if 0 ≤ q then ⌊q⌋ else ⌈q⌉

/-- Horizontal-dominant DDA loop: `for x { cy += iy; cb(x, int(cy)); }`. -/
def ddaH : Nat → Int → ℚ → ℚ → List (Int × Int)
  | 0, _, _, _ => []
  | n + 1, x, cy, iy => (x, ratTrunc (cy + iy)) :: ddaH n (x + 1) (cy + iy) iy

/-- Vertical-dominant DDA loop: `for y { cx += ix; cb(int(cx), y); }`. -/
def ddaV : Nat → Int → ℚ → ℚ → List (Int × Int)
  | 0, _, _, _ => []
  | n + 1, y, cx, ix => (ratTrunc (cx + ix), y) :: ddaV n (y + 1) (cx + ix) ix

/-- Body of `walkLine` after endpoint normalisation (so `x1 ≤ x2` holds for
every call coming from `walkLine`).  Returns the visited cells in order. -/
def walkCore (x1 y1 x2 y2 : Int) : List (Int × Int) :=
  if x1 = x2 ∧ y1 = y2 then []
  else
    let dx : ℚ := ((x2 - x1 : Int) : ℚ)
    let dy : ℚ := ((y2 - y1 : Int) : ℚ)
    if (x2 - x1).natAbs > (y2 - y1).natAbs then
      ddaH ((x2 - x1).toNat + 1) x1 ((y1 : Int) : ℚ) (dy / dx)
    else
      let ix := |dx / dy|
      if y1 > y2 then ddaV ((y1 - y2).toNat + 1) y2 ((x2 : Int) : ℚ) (-ix)
      else ddaV ((y2 - y1).toNat + 1) y1 ((x1 : Int) : ℚ) ix

/-- `walkLine` from main.cpp: normalise so the first endpoint has the smaller
x coordinate, then run the DDA.  The sequence of `cb` calls is returned as a
list of cells. -/
def walkLine (zx1 zy1 zx2 zy2 : Int) : List (Int × Int) :=
  if zx1 ≤ zx2 then walkCore zx1 zy1 zx2 zy2 else walkCore zx2 zy2 zx1 zy1

/-- `logic_line(zx1,zy1,zx2,zy2,1)` from main.cpp: walk the line and set every
visited in-field cell to `WALL_VALUE`.  (For `st ≠ 1` the callback only draws
preview pixels to the video buffer, which is outside the simulation state.) -/
def logicLine (zx1 zy1 zx2 zy2 : Int) (f : Field) : Field :=
  (walkLine zx1 zy1 zx2 zy2).foldl (fun g p =>
    if inField p.1 p.2 then setCell g p.1.toNat p.2.toNat WALL_VALUE else g) f

-- ===========================================================================
-- Field operations (main.cpp)
-- ===========================================================================

/-- `resetField` from main.cpp: zero every cell of the 320x200 array, then
stamp the four playable-field borders to `WALL_VALUE`.  The writes are
independent, so the net result is this case split. -/
def resetField : Field := fun x y =>
  if x < FIELD_WIDTH ∧ (y = 0 ∨ y = FIELD_HEIGHT - 1) then WALL_VALUE
  else if y < FIELD_HEIGHT ∧ (x = 0 ∨ x = FIELD_WIDTH - 1) then WALL_VALUE
  else 0

/-- `clearLines` from main.cpp: interior wall cells become 0. -/
def clearLines (f : Field) : Field := fun x y =>
  if 1 ≤ x ∧ x < FIELD_WIDTH - 1 ∧ 1 ≤ y ∧ y < FIELD_HEIGHT - 1 ∧
      f x y = WALL_VALUE then 0
  else f x y

/-- `clearWater` from main.cpp: every in-field cell below the wall sentinel
becomes 0, then the borders are re-stamped to walls. -/
def clearWater (f : Field) : Field := fun x y =>
  if x < FIELD_WIDTH ∧ (y = 0 ∨ y = FIELD_HEIGHT - 1) then WALL_VALUE
  else if y < FIELD_HEIGHT ∧ (x = 0 ∨ x = FIELD_WIDTH - 1) then WALL_VALUE
  else if x < FIELD_WIDTH ∧ y < FIELD_HEIGHT ∧ f x y < WALL_VALUE then 0
  else f x y

/-- `addWater` from main.cpp: for the rain-cloud brush above the cursor
(columns `[-r, r]`, rows `[-2r, -1]` relative to the cursor), every interior
non-wall cell receives `random_int(5)`.  The random-call counter is threaded
exactly as the C code sequences its calls. -/
def addWater (rand : Nat → Nat) (mmx mmy : Int) (f : Field) (k : Nat) :
    Field × Nat :=
  (List.range (2 * WATER_ADD_RADIUS + 1)).foldl (fun acc (qi : Nat) =>
    (List.range (2 * WATER_ADD_RADIUS)).foldl (fun acc2 (qj : Nat) =>
      let px : Int := ((qi : Int) - (WATER_ADD_RADIUS : Int)) + mmx
      let py : Int := ((qj : Int) - 2 * (WATER_ADD_RADIUS : Int)) + mmy
      if inFieldInterior px py ∧ acc2.1 px.toNat py.toNat < WALL_VALUE then
        (setCell acc2.1 px.toNat py.toNat (rand acc2.2 % 5), acc2.2 + 1)
      else acc2) acc) (f, k)

/-- `killWall` from main.cpp: the 5x5 square starting at `(mx-2, my-2)`;
every interior wall cell in it becomes 0.  The writes are independent, so the
net result is this case split. -/
def killWall (mx my : Int) (f : Field) : Field := fun a b =>
  if mx - 2 ≤ (a : Int) ∧ (a : Int) < mx - 2 + (ERASER_SIZE : Int) ∧
      my - 2 ≤ (b : Int) ∧ (b : Int) < my - 2 + (ERASER_SIZE : Int) ∧
      inFieldInterior (a : Int) (b : Int) ∧ f a b = WALL_VALUE then 0
  else f a b

/-- `killWater` from main.cpp: the same 5x5 square; every interior cell below
the wall sentinel becomes 0. -/
def killWater (mx my : Int) (f : Field) : Field := fun a b =>
  if mx - 2 ≤ (a : Int) ∧ (a : Int) < mx - 2 + (ERASER_SIZE : Int) ∧
      my - 2 ≤ (b : Int) ∧ (b : Int) < my - 2 + (ERASER_SIZE : Int) ∧
      inFieldInterior (a : Int) (b : Int) ∧ f a b < WALL_VALUE then 0
  else f a b

/-- The rain loop of `update`: one `random_int(RAIN_PROBABILITY)` call per
interior column `u ∈ [1, FIELD_WIDTH-2]`; on a draw of 1 the cell `(u, 1)`
is set to `WATER_SPAWN_AMOUNT`. -/
def rainLoop (rand : Nat → Nat) (f : Field) (k : Nat) : Field × Nat :=
  (List.range (FIELD_WIDTH - 2)).foldl (fun acc i =>
    if rand acc.2 % RAIN_PROBABILITY = 1 then
      (setCell acc.1 (i + 1) 1 WATER_SPAWN_AMOUNT, acc.2 + 1)
    else (acc.1, acc.2 + 1)) (f, k)

-- ===========================================================================
-- The simulation stepper (main.cpp update, the two passes)
-- ===========================================================================

/-- Pass 1 direction selection: scan order down (default), up, left, right,
keeping the strictly smaller neighbor.  Direction codes as in the C source:
1 = up, 2 = down, 3 = left, 4 = right. -/
def pass1Dir (f : Field) (x y : Nat) : Nat :=
  let u := f x (y - 1)
  let d := f x (y + 1)
  let l := f (x - 1) y
  let r := f (x + 1) y
  let qb : Nat × Nat := (d, 2)
  let qb := if u < qb.1 then (u, 1) else qb
  let qb := if l < qb.1 then (l, 3) else qb
  let qb := if r < qb.1 then (r, 4) else qb
  qb.2

/-- The Pass 1 body for one cell `(x, y)`: the drain check zeroes the cell if
the cell below is a drain; then, if the cell is active (density strictly
between 0 and the wall sentinel), decrement it and give one unit to the
selected neighbor provided that neighbor is below `MAX_WATER`. -/
def pass1Cell (f : Field) (x y : Nat) : Field :=
  let f0 := if f x (y + 1) = DRAIN_VALUE then setCell f x y 0 else f
  if 0 < f0 x y ∧ f0 x y < WALL_VALUE then
    let f2 := setCell f0 x y (f0 x y - 1)
    let b := pass1Dir f2 x y
    if b = 1 then
      (if f2 x (y - 1) < MAX_WATER then
        setCell f2 x (y - 1) (f2 x (y - 1) + 1) else f2)
    else if b = 2 then
      (if f2 x (y + 1) < MAX_WATER then
        setCell f2 x (y + 1) (f2 x (y + 1) + 1) else f2)
    else if b = 3 then
      (if f2 (x - 1) y < MAX_WATER then
        setCell f2 (x - 1) y (f2 (x - 1) y + 1) else f2)
    else if b = 4 then
      (if f2 (x + 1) y < MAX_WATER then
        setCell f2 (x + 1) y (f2 (x + 1) y + 1) else f2)
    else f2
  else f0

/-- Pass 2 direction selection: default down, then scan left, right, up. -/
def pass2Dir (f : Field) (x y : Nat) : Nat :=
  let u := f x (y - 1)
  let d := f x (y + 1)
  let l := f (x - 1) y
  let r := f (x + 1) y
  let qb : Nat × Nat := (d, 2)
  let qb := if l < qb.1 then (l, 3) else qb
  let qb := if r < qb.1 then (r, 4) else qb
  let qb := if u < qb.1 then (u, 1) else qb
  qb.2

/-- The Pass 2 body for one cell: if the cell is active, transfer
`flowAmt = min(density, DENSITY_FLOW)` to the selected neighbor provided that
neighbor is below `MAX_WATER` (destination is incremented first, then the
source decremented, as in the C source). -/
def pass2Cell (f : Field) (x y : Nat) : Field :=
  if 0 < f x y ∧ f x y < WALL_VALUE then
    let b := pass2Dir f x y
    let flowAmt := if DENSITY_FLOW ≤ f x y then DENSITY_FLOW else f x y
    if 0 < flowAmt then
      if b = 1 then
        (if f x (y - 1) < MAX_WATER then
          let g := setCell f x (y - 1) (f x (y - 1) + flowAmt)
          setCell g x y (g x y - flowAmt)
        else f)
      else if b = 2 then
        (if f x (y + 1) < MAX_WATER then
          let g := setCell f x (y + 1) (f x (y + 1) + flowAmt)
          setCell g x y (g x y - flowAmt)
        else f)
      else if b = 3 then
        (if f (x - 1) y < MAX_WATER then
          let g := setCell f (x - 1) y (f (x - 1) y + flowAmt)
          setCell g x y (g x y - flowAmt)
        else f)
      else if b = 4 then
        (if f (x + 1) y < MAX_WATER then
          let g := setCell f (x + 1) y (f (x + 1) y + flowAmt)
          setCell g x y (g x y - flowAmt)
        else f)
      else f
    else f
  else f

/-- One Pass 1 column `x`, rows `y = FIELD_HEIGHT-2` down to `1`. -/
def pass1Col (f : Field) (x : Nat) : Field :=
  (List.range (FIELD_HEIGHT - 2)).foldl
    (fun h j => pass1Cell h x (FIELD_HEIGHT - 2 - j)) f

/-- Pass 1: `for (x = 1; x < SCREEN_WIDTH-1; x++) for (y = FIELD_HEIGHT-2; y > 0; y--)`. -/
def pass1 (f : Field) : Field :=
  (List.range (SCREEN_WIDTH - 2)).foldl (fun g i => pass1Col g (i + 1)) f

/-- One Pass 2 column `x`, rows `y = FIELD_HEIGHT-2` down to `1`. -/
def pass2Col (f : Field) (x : Nat) : Field :=
  (List.range (FIELD_HEIGHT - 2)).foldl
    (fun h j => pass2Cell h x (FIELD_HEIGHT - 2 - j)) f

/-- Pass 2: `for (x = SCREEN_WIDTH-2; x > 0; x--) for (y = FIELD_HEIGHT-2; y >= 1; y--)`. -/
def pass2 (f : Field) : Field :=
  (List.range (SCREEN_WIDTH - 2)).foldl
    (fun g i => pass2Col g (SCREEN_WIDTH - 2 - i)) f

/-- The simulation step of `update` when not paused: Pass 1 then Pass 2,
both on the same grid. -/
def simStep (f : Field) : Field := pass2 (pass1 f)

-- ===========================================================================
-- Interaction state (GameState, InputState, TMouse, TButton)
-- ===========================================================================

inductive EraserMode
  | noneMode
  | wall
  | water
deriving DecidableEq, Repr

inductive DrawMode
  | lineMode
  | free
deriving DecidableEq, Repr

structure GameState where
  eraser : EraserMode
  drawmode : DrawMode
  rainmode : Bool
  paused : Bool
  frames : Int

structure InputState where
  hasLeft : Bool
  mayDraw : Bool
  x1 : Int
  y1 : Int

structure TMouse where
  x : Int
  y : Int
  leftDown : Bool
  rightDown : Bool
  oldLeftDown : Bool
  oldRightDown : Bool

structure TButton where
  x1 : Int
  y1 : Int
  x2 : Int
  y2 : Int
  tag : Int
  isDown : Bool
  isToggler : Bool

/-- The whole mutable state of the program: the grid, the game flags, the
mouse, the drag-tracking input state and the ten sidebar buttons. -/
structure SimState where
  field : Field
  game : GameState
  mouse : TMouse
  input : InputState
  buttons : Nat → TButton

/-- Per-tick external input: host mouse position, the button code
(0 none, 1 left, 2 right) and the oracle behind `random_int`. -/
structure Inputs where
  mx : Int
  my : Int
  btn : Nat
  rand : Nat → Nat

/-- `TMouse::update`: load the host position, save the previous button
state, decode the (mutually exclusive) button code. -/
def mouseUpdate (mx my : Int) (btn : Nat) (m : TMouse) : TMouse :=
  { x := mx, y := my,
    leftDown := btn = 1, rightDown := btn = 2,
    oldLeftDown := m.leftDown, oldRightDown := m.rightDown }

/-- `TMouse::checkInside`. -/
def checkInside (m : TMouse) (b : TButton) : Bool :=
  b.x1 ≤ m.x && m.x ≤ b.x2 && b.y1 ≤ m.y && m.y ≤ b.y2

/-- Overwrite one button's `isDown` flag. -/
def setDown (bs : Nat → TButton) (i : Nat) (v : Bool) : Nat → TButton :=
  fun j => if j = i then { bs i with isDown := v } else bs j

/-- `selectTool` from main.cpp: tool codes 1 pencil, 2 eraser-wall,
3 eraser-water (the `Tool` enum values).  The three tool buttons' pressed
flags are set exclusively and the eraser mode updated. -/
def selectTool (tool : Nat) (s : SimState) : SimState :=
  let bs := setDown (setDown (setDown s.buttons 1 (tool = 1)) 2 (tool = 2)) 3
    (tool = 3)
  let er :=
    if tool = 1 then EraserMode.noneMode
    else if tool = 2 then EraserMode.wall
    else if tool = 3 then EraserMode.water
    else s.game.eraser
  { s with buttons := bs, game := { s.game with eraser := er } }

/-- `selectDrawMode` from main.cpp. -/
def selectDrawMode (mode : DrawMode) (s : SimState) : SimState :=
  let bs := setDown (setDown s.buttons 4 (mode = DrawMode.lineMode)) 5
    (mode = DrawMode.free)
  { s with buttons := bs, game := { s.game with drawmode := mode } }

/-- The toggle-action dispatch of `check`, by button tag
(10 reset, 11 pause, 12 clear walls, 13 clear water, 22 rain). -/
def actionDispatch (tag : Int) (s : SimState) : SimState :=
  if tag = 10 then
    { s with field := resetField, game := { s.game with rainmode := false } }
  else if tag = 11 then { s with game := { s.game with paused := !s.game.paused } }
  else if tag = 12 then { s with field := clearLines s.field }
  else if tag = 13 then
    { s with field := clearWater s.field, game := { s.game with rainmode := false } }
  else if tag = 22 then
    { s with game := { s.game with rainmode := !s.game.rainmode } }
  else s

/-- The tool-switch dispatch of `check`, by button index (the `switch (a)`
on the `Tool` enum values). -/
def toolClick (s : SimState) (a : Nat) : SimState :=
  if a = 1 then selectTool 1 s
  else if a = 2 then selectTool 2 s
  else if a = 3 then selectTool 3 s
  else if a = 4 then selectDrawMode DrawMode.lineMode s
  else if a = 5 then selectDrawMode DrawMode.free s
  else s

/-- One iteration of the `check` loop for button index `a`: a left-press
edge inside the rectangle dispatches tool selection by index; a left-release
edge inside the rectangle of a toggler button dispatches its action and
flashes the button (pressed flag forced off). -/
def checkBtn (s : SimState) (a : Nat) : SimState :=
  let s :=
    if s.mouse.leftDown ∧ ¬s.mouse.oldLeftDown ∧ checkInside s.mouse (s.buttons a) then
      toolClick s a
    else s
  if checkInside s.mouse (s.buttons a) ∧
      ¬s.mouse.leftDown ∧ s.mouse.oldLeftDown ∧ (s.buttons a).isToggler then
    let s2 := actionDispatch (s.buttons a).tag s
    { s2 with buttons := setDown s2.buttons a false }
  else s

/-- `check` from main.cpp: the loop over the ten button slots.
(`btn.paint()` only renders and is not part of the simulation state.) -/
def check (s : SimState) : SimState :=
  (List.range 10).foldl checkBtn s

/-- The drawing dispatch of `update` (runs only when no eraser is active). -/
def drawPhase (s : SimState) : SimState :=
  if s.game.drawmode = DrawMode.lineMode then
    let s :=
      if s.mouse.leftDown ∧ ¬s.mouse.oldLeftDown ∧ s.mouse.x < (FIELD_WIDTH : Int) then
        { s with input := { s.input with hasLeft := true, x1 := s.mouse.x, y1 := s.mouse.y } }
      else s
    if ¬s.mouse.leftDown ∧ s.mouse.oldLeftDown ∧ s.input.hasLeft then
      { s with input := { s.input with hasLeft := false },
               field := logicLine s.input.x1 s.input.y1 s.mouse.x s.mouse.y s.field }
    else s
  else
    let s :=
      if s.mouse.leftDown ∧ ¬s.mouse.oldLeftDown ∧ s.mouse.x < (FIELD_WIDTH : Int) then
        { s with input :=
          { s.input with mayDraw := true, hasLeft := true, x1 := s.mouse.x, y1 := s.mouse.y } }
      else s
    let s :=
      if s.mouse.leftDown ∧ s.mouse.oldLeftDown ∧ s.input.hasLeft ∧ s.input.mayDraw then
        { s with field := logicLine s.input.x1 s.input.y1 s.mouse.x s.mouse.y s.field,
                 input := { s.input with x1 := s.mouse.x, y1 := s.mouse.y } }
      else s
    if ¬s.mouse.leftDown then { s with input := { s.input with mayDraw := false } }
    else s

/-- The rain block of `update`. -/
def rainPhase (rand : Nat → Nat) (s : SimState) : SimState × Nat :=
  if s.game.rainmode ∧ ¬s.game.paused then
    let fk := rainLoop rand s.field 0
    ({ s with field := fk.1 }, fk.2)
  else (s, 0)

/-- The right-button dispatch of `update`: add water, or erase walls or
water, by the current eraser mode. -/
def rightEdit (rand : Nat → Nat) (k : Nat) (s : SimState) : SimState :=
  match s.game.eraser with
  | EraserMode.noneMode =>
      { s with field := (addWater rand s.mouse.x s.mouse.y s.field k).1 }
  | EraserMode.wall => { s with field := killWall s.mouse.x s.mouse.y s.field }
  | EraserMode.water => { s with field := killWater s.mouse.x s.mouse.y s.field }

/-- The mouse-held edit block of `update`: right button dispatches by eraser
mode; the left button erases when an eraser mode is active. -/
def editPhase (rand : Nat → Nat) (k : Nat) (s : SimState) : SimState :=
  let s := if s.mouse.rightDown then rightEdit rand k s else s
  let s :=
    if s.mouse.leftDown ∧ s.game.eraser = EraserMode.wall then
      { s with field := killWall s.mouse.x s.mouse.y s.field }
    else s
  if s.mouse.leftDown ∧ s.game.eraser = EraserMode.water then
    { s with field := killWater s.mouse.x s.mouse.y s.field }
  else s

/-- The final block of `update`: the two simulation passes, unless paused. -/
def simPhase (s : SimState) : SimState :=
  if s.game.paused then s else { s with field := simStep s.field }

/-- `update` from main.cpp: mouse refresh, button handling, rain, mouse-held
edits, drawing, frame counter, then the simulation step. -/
def update (inp : Inputs) (s : SimState) : SimState :=
  let s := { s with mouse := mouseUpdate inp.mx inp.my inp.btn s.mouse }
  let s := check s
  let sk := rainPhase inp.rand s
  let s := editPhase inp.rand sk.2 sk.1
  let s := if s.game.eraser = EraserMode.noneMode then drawPhase s else s
  let s := { s with game := { s.game with frames := s.game.frames + 1 } }
  simPhase s

-- ===========================================================================
-- Initial state (init / drawUI from main.cpp)
-- ===========================================================================

/-- The button array after `drawUI`: rectangles from `setupBtn`, pencil and
line pressed, and `isToggler` set exactly on the buttons whose tag is an
action (≥ 10).  Slots ≥ 10 do not exist in the C array; the loop never
touches them, and they keep the `TButton` defaults. -/
def initButtons : Nat → TButton := fun i =>
  if i = 0 then ⟨301, 2, 318, 19, 22, false, true⟩
  else if i = 1 then ⟨301, 27, 318, 44, 0, true, false⟩
  else if i = 2 then ⟨301, 47, 318, 64, 0, false, false⟩
  else if i = 3 then ⟨301, 67, 318, 84, 0, false, false⟩
  else if i = 4 then ⟨301, 92, 318, 109, 0, true, false⟩
  else if i = 5 then ⟨301, 112, 318, 129, 0, false, false⟩
  else if i = 6 then ⟨301, 137, 318, 154, 11, false, true⟩
  else if i = 7 then ⟨301, 181, 318, 198, 10, false, true⟩
  else if i = 8 then ⟨301, 158, 318, 166, 12, false, true⟩
  else if i = 9 then ⟨301, 169, 318, 177, 13, false, true⟩
  else ⟨0, 0, 0, 0, 1, false, false⟩

/-- `TMouse::TMouse()`: cursor at (160, 100), no buttons down. -/
def initMouse : TMouse :=
  { x := 160, y := 100, leftDown := false, rightDown := false,
    oldLeftDown := false, oldRightDown := false }

/-- The state after `init()`: `resetField` plus the defaults of the global
`GameState`/`InputState` instances and the `drawUI` button setup. -/
def initState : SimState :=
  { field := resetField,
    game := { eraser := EraserMode.noneMode, drawmode := DrawMode.lineMode,
              rainmode := false, paused := false, frames := 0 },
    mouse := initMouse,
    input := { hasLeft := false, mayDraw := true, x1 := 0, y1 := 0 },
    buttons := initButtons }

/-- Run the program: `init()` followed by one `update()` per input frame. -/
def run (l : List Inputs) : SimState :=
  l.foldl (fun s inp => update inp s) initState

-- ===========================================================================
-- Basic lemmas about the embedding
-- ===========================================================================

theorem setCell_read (f : Field) (x y v a b : Nat) :
    setCell f x y v a b = if a = x ∧ b = y then v else f a b := rfl

theorem setCell_self (f : Field) (x y v : Nat) : setCell f x y v x y = v := by
  simp [setCell]

theorem setCell_ne (f : Field) (x y v a b : Nat) (h : ¬(a = x ∧ b = y)) :
    setCell f x y v a b = f a b := by
  simp [setCell, h]

/-- A fold preserves any invariant its step preserves. -/
theorem foldl_inv {α β : Type _} (P : α → Prop) (g : α → β → α) (l : List β)
    (h : ∀ a b, b ∈ l → P a → P (g a b)) (a : α) (h0 : P a) :
    P (l.foldl g a) := by
  induction l generalizing a with
  | nil => exact h0
  | cons c t ih =>
      exact ih (fun a' b' hb' => h a' b' (List.mem_cons_of_mem c hb'))
        (g a c) (h a c (List.mem_cons_self c t) h0)

/-- A fold whose every step fixes the accumulator returns it unchanged. -/
theorem foldl_fixed {α β : Type _} {g : α → β → α} {a : α} {l : List β}
    (h : ∀ b ∈ l, g a b = a) : l.foldl g a = a := by
  induction l with
  | nil => rfl
  | cons c t ih =>
      rw [List.foldl_cons, h c (List.mem_cons_self c t)]
      exact ih (fun b hb => h b (List.mem_cons_of_mem c hb))

/-- The cell a direction code points at: 1 up, 2 down, 3 left, 4 right. -/
def dirPos (x y b : Nat) : Nat × Nat :=
  if b = 1 then (x, y - 1)
  else if b = 2 then (x, y + 1)
  else if b = 3 then (x - 1, y)
  else (x + 1, y)

@[simp] theorem dirPos_one (x y : Nat) : dirPos x y 1 = (x, y - 1) := rfl

@[simp] theorem dirPos_two (x y : Nat) : dirPos x y 2 = (x, y + 1) := rfl

@[simp] theorem dirPos_three (x y : Nat) : dirPos x y 3 = (x - 1, y) := rfl

@[simp] theorem dirPos_four (x y : Nat) : dirPos x y 4 = (x + 1, y) := rfl

/-- The guarded single-unit transfer at the end of the Pass 1 body. -/
def incTarget (g : Field) (p : Nat × Nat) : Field :=
  if g p.1 p.2 < MAX_WATER then setCell g p.1 p.2 (g p.1 p.2 + 1) else g

/-- The guarded `flowAmt` transfer at the end of the Pass 2 body. -/
def transferTarget (f : Field) (p : Nat × Nat) (x y : Nat) : Field :=
  let amt := if DENSITY_FLOW ≤ f x y then DENSITY_FLOW else f x y
  if 0 < amt then
    if f p.1 p.2 < MAX_WATER then
      let g := setCell f p.1 p.2 (f p.1 p.2 + amt)
      setCell g x y (g x y - amt)
    else f
  else f

theorem pass1Dir_cases (g : Field) (x y : Nat) :
    pass1Dir g x y = 1 ∨ pass1Dir g x y = 2 ∨ pass1Dir g x y = 3 ∨
      pass1Dir g x y = 4 := by
  simp only [pass1Dir]
  split_ifs <;> simp

theorem pass2Dir_cases (g : Field) (x y : Nat) :
    pass2Dir g x y = 1 ∨ pass2Dir g x y = 2 ∨ pass2Dir g x y = 3 ∨
      pass2Dir g x y = 4 := by
  simp only [pass2Dir]
  split_ifs <;> simp

theorem dirPos_ne_self (x y b : Nat) (hx : 1 ≤ x) (hy : 1 ≤ y) :
    ¬(x = (dirPos x y b).1 ∧ y = (dirPos x y b).2) := by
  unfold dirPos
  split_ifs <;> simp <;> omega

/-- Pass 1 on a drain-covered cell: the cell is zeroed and nothing else
happens (the zeroed cell is no longer active). -/
theorem pass1Cell_drain (f : Field) (x y : Nat) (hD : f x (y + 1) = DRAIN_VALUE) :
    pass1Cell f x y = setCell f x y 0 := by
  have hcell : setCell f x y 0 x y = 0 := setCell_self f x y 0
  have hact : ¬(0 < setCell f x y 0 x y ∧ setCell f x y 0 x y < WALL_VALUE) := by
    rw [hcell]
    simp
  simp only [pass1Cell, if_pos hD, if_neg hact]

/-- Pass 1 on an inactive (and not drain-covered) cell does nothing. -/
theorem pass1Cell_id (f : Field) (x y : Nat) (hD : f x (y + 1) ≠ DRAIN_VALUE)
    (hact : ¬(0 < f x y ∧ f x y < WALL_VALUE)) : pass1Cell f x y = f := by
  simp only [pass1Cell, if_neg hD, if_neg hact]

/-- Pass 1 on an active cell: decrement, then the guarded unit transfer to
the selected direction. -/
theorem pass1Cell_active (f : Field) (x y : Nat) (hD : f x (y + 1) ≠ DRAIN_VALUE)
    (hact : 0 < f x y ∧ f x y < WALL_VALUE) :
    pass1Cell f x y =
      incTarget (setCell f x y (f x y - 1))
        (dirPos x y (pass1Dir (setCell f x y (f x y - 1)) x y)) := by
  simp only [pass1Cell, if_neg hD, if_pos hact]
  rcases pass1Dir_cases (setCell f x y (f x y - 1)) x y with hb | hb | hb | hb <;>
    simp [hb, incTarget, dirPos]

/-- Pass 2 on an inactive cell does nothing. -/
theorem pass2Cell_id (f : Field) (x y : Nat)
    (hact : ¬(0 < f x y ∧ f x y < WALL_VALUE)) : pass2Cell f x y = f := by
  simp only [pass2Cell, if_neg hact]

/-- Pass 2 on an active cell: the guarded `flowAmt` transfer to the selected
direction. -/
theorem pass2Cell_active (f : Field) (x y : Nat)
    (hact : 0 < f x y ∧ f x y < WALL_VALUE) :
    pass2Cell f x y = transferTarget f (dirPos x y (pass2Dir f x y)) x y := by
  simp only [pass2Cell, if_pos hact]
  rcases pass2Dir_cases f x y with hb | hb | hb | hb <;>
    simp [hb, transferTarget, dirPos]

theorem incTarget_change (g : Field) (p : Nat × Nat) (a b : Nat) :
    incTarget g p a b = g a b ∨
      (g a b < MAX_WATER ∧ incTarget g p a b = g a b + 1) := by
  unfold incTarget
  by_cases hg : g p.1 p.2 < MAX_WATER
  · rw [if_pos hg]
    by_cases hab : a = p.1 ∧ b = p.2
    · right
      rw [hab.1, hab.2]
      exact ⟨hg, setCell_self g p.1 p.2 _⟩
    · left
      exact setCell_ne g p.1 p.2 _ a b hab
  · rw [if_neg hg]
    left
    rfl

/-- Per-cell effect of Pass 1 at any visited position: a cell either keeps
its value, or is the drain-zeroed cell itself, or was an arithmetic density
(below the wall sentinel) and stays at most `MAX_WATER`. -/
theorem pass1Cell_change (f : Field) (x y : Nat) (hx : 1 ≤ x) (hy : 1 ≤ y)
    (a b : Nat) :
    pass1Cell f x y a b = f a b ∨
    (a = x ∧ b = y ∧ f x (y + 1) = DRAIN_VALUE ∧ pass1Cell f x y a b = 0) ∨
    (f a b < WALL_VALUE ∧ pass1Cell f x y a b ≤ MAX_WATER) := by
  by_cases hD : f x (y + 1) = DRAIN_VALUE
  · rw [pass1Cell_drain f x y hD]
    by_cases hab : a = x ∧ b = y
    · right; left
      refine ⟨hab.1, hab.2, hD, ?_⟩
      rw [hab.1, hab.2]
      exact setCell_self f x y 0
    · left
      exact setCell_ne f x y 0 a b hab
  · by_cases hact : 0 < f x y ∧ f x y < WALL_VALUE
    · rw [pass1Cell_active f x y hD hact]
      rcases incTarget_change (setCell f x y (f x y - 1))
          (dirPos x y (pass1Dir (setCell f x y (f x y - 1)) x y)) a b with
        hsame | ⟨hlt, hinc⟩
      · by_cases hab : a = x ∧ b = y
        · obtain ⟨rfl, rfl⟩ := hab
          right; right
          rw [hsame, setCell_self]
          have := hact.2
          simp only [WALL_VALUE, MAX_WATER] at *
          exact ⟨this, by omega⟩
        · left
          rw [hsame, setCell_ne f x y _ a b hab]
      · by_cases hab : a = x ∧ b = y
        · obtain ⟨rfl, rfl⟩ := hab
          right; right
          rw [setCell_self] at hlt hinc
          rw [hinc]
          have := hact.2
          simp only [WALL_VALUE, MAX_WATER] at *
          exact ⟨this, by omega⟩
        · right; right
          rw [setCell_ne f x y _ a b hab] at hlt hinc
          rw [hinc]
          simp only [WALL_VALUE, MAX_WATER] at *
          exact ⟨by omega, by omega⟩
    · left
      rw [pass1Cell_id f x y hD hact]

theorem transferTarget_change (f : Field) (p : Nat × Nat) (x y a b : Nat)
    (hp : ¬(x = p.1 ∧ y = p.2)) (hs : f x y < WALL_VALUE) :
    transferTarget f p x y a b = f a b ∨
    (f a b < WALL_VALUE ∧ transferTarget f p x y a b ≤ MAX_WATER + 1) := by
  have hamt : (if DENSITY_FLOW ≤ f x y then DENSITY_FLOW else f x y) ≤
      DENSITY_FLOW := by
    split_ifs <;> omega
  simp only [transferTarget]
  by_cases h0 : 0 < (if DENSITY_FLOW ≤ f x y then DENSITY_FLOW else f x y)
  · rw [if_pos h0]
    by_cases hg : f p.1 p.2 < MAX_WATER
    · rw [if_pos hg]
      have hsrc : setCell f p.1 p.2
          (f p.1 p.2 + if DENSITY_FLOW ≤ f x y then DENSITY_FLOW else f x y) x y
          = f x y := setCell_ne _ _ _ _ _ _ hp
      by_cases hab : a = x ∧ b = y
      · obtain ⟨rfl, rfl⟩ := hab
        right
        rw [setCell_self, hsrc]
        refine ⟨hs, ?_⟩
        simp only [WALL_VALUE, MAX_WATER] at *
        omega
      · rw [setCell_ne _ _ _ _ _ _ hab]
        by_cases hat : a = p.1 ∧ b = p.2
        · obtain ⟨rfl, rfl⟩ := hat
          right
          rw [setCell_self]
          simp only [WALL_VALUE, MAX_WATER, DENSITY_FLOW] at *
          exact ⟨by omega, by omega⟩
        · left
          exact setCell_ne _ _ _ _ _ _ hat
    · rw [if_neg hg]
      left
      rfl
  · rw [if_neg h0]
    left
    rfl

/-- Per-cell effect of Pass 2 at any visited position: a cell either keeps
its value, or was an arithmetic density and ends at most `MAX_WATER + 1`
(`DENSITY_FLOW - 1` above the cap). -/
theorem pass2Cell_change (f : Field) (x y : Nat) (hx : 1 ≤ x) (hy : 1 ≤ y)
    (a b : Nat) :
    pass2Cell f x y a b = f a b ∨
    (f a b < WALL_VALUE ∧ pass2Cell f x y a b ≤ MAX_WATER + 1) := by
  by_cases hact : 0 < f x y ∧ f x y < WALL_VALUE
  · rw [pass2Cell_active f x y hact]
    exact transferTarget_change f _ x y a b
      (dirPos_ne_self x y (pass2Dir f x y) hx hy) hact.2
  · left
    rw [pass2Cell_id f x y hact]

-- ===========================================================================
-- The field invariant: playable borders are walls, no cell is a drain
-- ===========================================================================

/-- Cells of the playable border: `field[x][0]`, `field[x][FIELD_HEIGHT-1]`
for `x < FIELD_WIDTH`, and `field[0][y]`, `field[FIELD_WIDTH-1][y]` for
`y < FIELD_HEIGHT`. -/
def isBorder (x y : Nat) : Prop :=
  (x < FIELD_WIDTH ∧ (y = 0 ∨ y = FIELD_HEIGHT - 1)) ∨
  ((x = 0 ∨ x = FIELD_WIDTH - 1) ∧ y < FIELD_HEIGHT)

/-- The field invariant maintained by every reachable state: all playable
border cells hold the wall sentinel and no cell anywhere holds the drain
sentinel. -/
def FieldInv (f : Field) : Prop :=
  (∀ x y, isBorder x y → f x y = WALL_VALUE) ∧ (∀ x y, f x y ≠ DRAIN_VALUE)

theorem inFieldInterior_iff (x y : Int) :
    inFieldInterior x y = true ↔ 0 < x ∧ x < 299 ∧ 0 < y ∧ y < 199 := by
  simp only [inFieldInterior, FIELD_WIDTH, FIELD_HEIGHT, Bool.and_eq_true,
    decide_eq_true_eq]
  norm_num
  tauto

theorem inField_iff (x y : Int) :
    inField x y = true ↔ 0 ≤ x ∧ x < 300 ∧ 0 ≤ y ∧ y < 200 := by
  simp only [inField, FIELD_WIDTH, FIELD_HEIGHT, Bool.and_eq_true,
    decide_eq_true_eq]
  norm_num
  tauto

/-- A playable-border cell is never in the field interior. -/
theorem isBorder_not_interior (a b : Nat) (h : isBorder a b) :
    ¬(inFieldInterior (a : Int) (b : Int) = true) := by
  rw [inFieldInterior_iff]
  simp only [isBorder, FIELD_WIDTH, FIELD_HEIGHT] at h
  omega

theorem resetField_inv : FieldInv resetField := by
  constructor
  · intro x y h
    simp only [resetField]
    split_ifs with h1 h2
    · rfl
    · rfl
    · exfalso
      simp only [isBorder] at h
      tauto
  · intro x y
    simp only [resetField]
    split_ifs <;> simp [WALL_VALUE, DRAIN_VALUE]

theorem clearLines_inv (f : Field) (h : FieldInv f) : FieldInv (clearLines f) := by
  constructor
  · intro x y hb
    simp only [clearLines]
    split_ifs with h1
    · exfalso
      simp only [isBorder, FIELD_WIDTH, FIELD_HEIGHT] at hb
      simp only [FIELD_WIDTH, FIELD_HEIGHT] at h1
      omega
    · exact h.1 x y hb
  · intro x y
    simp only [clearLines]
    split_ifs
    · simp [DRAIN_VALUE]
    · exact h.2 x y

theorem clearWater_inv (f : Field) (h : FieldInv f) : FieldInv (clearWater f) := by
  constructor
  · intro x y hb
    simp only [clearWater]
    split_ifs with h1 h2 h3
    · rfl
    · rfl
    · exfalso
      simp only [isBorder] at hb
      tauto
    · exfalso
      simp only [isBorder] at hb
      tauto
  · intro x y
    have hd := h.2 x y
    simp only [DRAIN_VALUE] at hd
    simp only [clearWater]
    split_ifs <;> simp_all [WALL_VALUE, DRAIN_VALUE]

theorem killWall_inv (mx my : Int) (f : Field) (h : FieldInv f) :
    FieldInv (killWall mx my f) := by
  constructor
  · intro x y hb
    simp only [killWall]
    split_ifs with h1
    · exact absurd h1.2.2.2.2.1 (isBorder_not_interior x y hb)
    · exact h.1 x y hb
  · intro x y
    simp only [killWall]
    split_ifs
    · simp [DRAIN_VALUE]
    · exact h.2 x y

theorem killWater_inv (mx my : Int) (f : Field) (h : FieldInv f) :
    FieldInv (killWater mx my f) := by
  constructor
  · intro x y hb
    simp only [killWater]
    split_ifs with h1
    · exact absurd h1.2.2.2.2.1 (isBorder_not_interior x y hb)
    · exact h.1 x y hb
  · intro x y
    simp only [killWater]
    split_ifs
    · simp [DRAIN_VALUE]
    · exact h.2 x y

/-- Writing a wall, or any value that is not a drain, at a non-border cell
(or a wall at any cell) preserves the invariant. -/
theorem setCell_inv_wall (f : Field) (x y : Nat) (h : FieldInv f) :
    FieldInv (setCell f x y WALL_VALUE) := by
  constructor
  · intro a b hb
    rw [setCell_read]
    split_ifs
    · rfl
    · exact h.1 a b hb
  · intro a b
    rw [setCell_read]
    split_ifs
    · simp [WALL_VALUE, DRAIN_VALUE]
    · exact h.2 a b

theorem setCell_inv_interior (f : Field) (x y v : Nat) (h : FieldInv f)
    (hint : ¬ isBorder x y) (hv : v ≠ DRAIN_VALUE) :
    FieldInv (setCell f x y v) := by
  constructor
  · intro a b hb
    rw [setCell_read]
    split_ifs with he
    · exact absurd (he.1 ▸ he.2 ▸ hb) hint
    · exact h.1 a b hb
  · intro a b
    rw [setCell_read]
    split_ifs
    · exact hv
    · exact h.2 a b

theorem logicLine_inv (x1 y1 x2 y2 : Int) (f : Field) (h : FieldInv f) :
    FieldInv (logicLine x1 y1 x2 y2 f) := by
  unfold logicLine
  refine foldl_inv FieldInv _ _ ?_ f h
  intro g p _ hg
  dsimp only
  split_ifs
  · exact setCell_inv_wall g _ _ hg
  · exact hg

/-- An interior cell is never a playable-border cell. -/
theorem interior_not_border (px py : Int) (h : inFieldInterior px py = true) :
    ¬ isBorder px.toNat py.toNat := by
  rw [inFieldInterior_iff] at h
  simp only [isBorder, FIELD_WIDTH, FIELD_HEIGHT]
  omega

theorem addWater_inv (rand : Nat → Nat) (mx my : Int) (f : Field) (k : Nat)
    (h : FieldInv f) : FieldInv (addWater rand mx my f k).1 := by
  unfold addWater
  refine foldl_inv (fun acc : Field × Nat => FieldInv acc.1) _ _ ?_ _ h
  intro acc qi _ hacc
  refine foldl_inv (fun acc : Field × Nat => FieldInv acc.1) _ _ ?_ _ hacc
  intro acc2 qj _ hacc2
  dsimp only
  split_ifs with hcond
  · refine setCell_inv_interior _ _ _ _ hacc2 (interior_not_border _ _ hcond.1) ?_
    have h5 : rand acc2.2 % 5 < 5 := Nat.mod_lt _ (by norm_num)
    simp only [DRAIN_VALUE]
    omega
  · exact hacc2

theorem rainLoop_inv (rand : Nat → Nat) (f : Field) (k : Nat)
    (h : FieldInv f) : FieldInv (rainLoop rand f k).1 := by
  unfold rainLoop
  refine foldl_inv (fun acc : Field × Nat => FieldInv acc.1) _ _ ?_ _ h
  intro acc i hi hacc
  dsimp only
  split_ifs
  · refine setCell_inv_interior _ _ _ _ hacc ?_ ?_
    · have hi' : i < FIELD_WIDTH - 2 := List.mem_range.mp hi
      simp only [isBorder, FIELD_WIDTH, FIELD_HEIGHT] at *
      omega
    · simp [WATER_SPAWN_AMOUNT, DRAIN_VALUE]
  · exact hacc

theorem pass1Cell_inv (g : Field) (x y : Nat) (hx : 1 ≤ x) (hy : 1 ≤ y)
    (h : FieldInv g) : FieldInv (pass1Cell g x y) := by
  constructor
  · intro a b hb
    rcases pass1Cell_change g x y hx hy a b with hc | ⟨_, _, hdr, _⟩ | ⟨hlt, _⟩
    · rw [hc]
      exact h.1 a b hb
    · exact absurd hdr (h.2 x (y + 1))
    · rw [h.1 a b hb] at hlt
      exact absurd hlt (by simp [WALL_VALUE])
  · intro a b
    rcases pass1Cell_change g x y hx hy a b with hc | ⟨_, _, _, hz⟩ | ⟨_, hle⟩
    · rw [hc]
      exact h.2 a b
    · rw [hz]
      simp [DRAIN_VALUE]
    · simp only [MAX_WATER, DRAIN_VALUE] at *
      omega

theorem pass2Cell_inv (g : Field) (x y : Nat) (hx : 1 ≤ x) (hy : 1 ≤ y)
    (h : FieldInv g) : FieldInv (pass2Cell g x y) := by
  constructor
  · intro a b hb
    rcases pass2Cell_change g x y hx hy a b with hc | ⟨hlt, _⟩
    · rw [hc]
      exact h.1 a b hb
    · rw [h.1 a b hb] at hlt
      exact absurd hlt (by simp [WALL_VALUE])
  · intro a b
    rcases pass2Cell_change g x y hx hy a b with hc | ⟨_, hle⟩
    · rw [hc]
      exact h.2 a b
    · simp only [MAX_WATER, DRAIN_VALUE] at *
      omega

theorem pass1Col_inv (f : Field) (x : Nat) (hx : 1 ≤ x) (h : FieldInv f) :
    FieldInv (pass1Col f x) := by
  unfold pass1Col
  refine foldl_inv FieldInv _ _ ?_ f h
  intro g j hj hg
  have hj' : j < FIELD_HEIGHT - 2 := List.mem_range.mp hj
  refine pass1Cell_inv g x _ hx ?_ hg
  simp only [FIELD_HEIGHT] at *
  omega

theorem pass2Col_inv (f : Field) (x : Nat) (hx : 1 ≤ x) (h : FieldInv f) :
    FieldInv (pass2Col f x) := by
  unfold pass2Col
  refine foldl_inv FieldInv _ _ ?_ f h
  intro g j hj hg
  have hj' : j < FIELD_HEIGHT - 2 := List.mem_range.mp hj
  refine pass2Cell_inv g x _ hx ?_ hg
  simp only [FIELD_HEIGHT] at *
  omega

theorem pass1_inv (f : Field) (h : FieldInv f) : FieldInv (pass1 f) := by
  unfold pass1
  refine foldl_inv FieldInv _ _ ?_ f h
  intro g i _ hg
  exact pass1Col_inv g (i + 1) (by omega) hg

theorem pass2_inv (f : Field) (h : FieldInv f) : FieldInv (pass2 f) := by
  unfold pass2
  refine foldl_inv FieldInv _ _ ?_ f h
  intro g i hi hg
  have hi' : i < SCREEN_WIDTH - 2 := List.mem_range.mp hi
  refine pass2Col_inv g _ ?_ hg
  simp only [SCREEN_WIDTH] at *
  omega

theorem simStep_inv (f : Field) (h : FieldInv f) : FieldInv (simStep f) :=
  pass2_inv _ (pass1_inv _ h)

-- ===========================================================================
-- The field invariant through the whole update
-- ===========================================================================

theorem actionDispatch_inv (tag : Int) (s : SimState) (h : FieldInv s.field) :
    FieldInv (actionDispatch tag s).field := by
  unfold actionDispatch
  split_ifs
  · exact resetField_inv
  · exact h
  · exact clearLines_inv _ h
  · exact clearWater_inv _ h
  · exact h
  · exact h

theorem toolClick_field (s : SimState) (a : Nat) :
    (toolClick s a).field = s.field := by
  unfold toolClick
  split_ifs <;> rfl

theorem checkBtn_inv (s : SimState) (a : Nat) (h : FieldInv s.field) :
    FieldInv (checkBtn s a).field := by
  unfold checkBtn
  dsimp only
  split_ifs
  all_goals
    first
      | exact h
      | (rw [toolClick_field]; exact h)
      | exact actionDispatch_inv _ _ h
      | exact actionDispatch_inv _ _ (by rw [toolClick_field]; exact h)

theorem check_inv (s : SimState) (h : FieldInv s.field) :
    FieldInv (check s).field := by
  unfold check
  refine foldl_inv (fun s' : SimState => FieldInv s'.field) _ _ ?_ s h
  intro s' a _ hs'
  exact checkBtn_inv s' a hs'

theorem rainPhase_inv (rand : Nat → Nat) (s : SimState) (h : FieldInv s.field) :
    FieldInv (rainPhase rand s).1.field := by
  unfold rainPhase
  split_ifs
  · exact rainLoop_inv _ _ _ h
  · exact h

theorem rightEdit_inv (rand : Nat → Nat) (k : Nat) (s : SimState)
    (h : FieldInv s.field) : FieldInv (rightEdit rand k s).field := by
  unfold rightEdit
  cases hm : s.game.eraser <;> simp only [hm]
  · exact addWater_inv _ _ _ _ _ h
  · exact killWall_inv _ _ _ h
  · exact killWater_inv _ _ _ h

theorem editPhase_inv (rand : Nat → Nat) (k : Nat) (s : SimState)
    (h : FieldInv s.field) : FieldInv (editPhase rand k s).field := by
  unfold editPhase
  dsimp only
  split_ifs
  all_goals
    first
      | exact h
      | exact rightEdit_inv _ _ _ h
      | exact killWall_inv _ _ _ h
      | exact killWater_inv _ _ _ h
      | exact killWall_inv _ _ _ (rightEdit_inv _ _ _ h)
      | exact killWater_inv _ _ _ (killWall_inv _ _ _ h)
      | exact killWater_inv _ _ _ (rightEdit_inv _ _ _ h)
      | exact killWater_inv _ _ _ (killWall_inv _ _ _ (rightEdit_inv _ _ _ h))

theorem drawPhase_inv (s : SimState) (h : FieldInv s.field) :
    FieldInv (drawPhase s).field := by
  unfold drawPhase
  dsimp only
  split_ifs
  all_goals
    first
      | exact h
      | exact logicLine_inv _ _ _ _ _ h

theorem simPhase_inv (s : SimState) (h : FieldInv s.field) :
    FieldInv (simPhase s).field := by
  unfold simPhase
  split_ifs
  · exact h
  · dsimp only
    exact simStep_inv s.field h

/-- The field invariant survives one whole `update`, whatever the inputs. -/
theorem update_inv (inp : Inputs) (s : SimState) (h : FieldInv s.field) :
    FieldInv (update inp s).field := by
  unfold update
  dsimp only
  apply simPhase_inv
  dsimp only
  split_ifs
  · apply drawPhase_inv
    apply editPhase_inv
    apply rainPhase_inv
    exact check_inv _ h
  · apply editPhase_inv
    apply rainPhase_inv
    exact check_inv _ h

/-- Every state reachable from `init()` satisfies the field invariant. -/
theorem run_inv (l : List Inputs) : FieldInv (run l).field := by
  unfold run
  refine foldl_inv (fun s : SimState => FieldInv s.field) _ _ ?_ _ ?_
  · intro s inp _ hs
    exact update_inv inp s hs
  · exact resetField_inv

-- ===========================================================================
-- Claims C6 and C10
-- ===========================================================================

/-- C6: in every state reachable from `init()` by any sequence of complete
`update()` calls with any mouse inputs, every playable-border cell —
`field[x][0]` and `field[x][FIELD_HEIGHT-1]` for `x < FIELD_WIDTH`, and
`field[0][y]` and `field[FIELD_WIDTH-1][y]` for `y < FIELD_HEIGHT` — holds
the wall sentinel at the tick boundary. -/
theorem c6_border_wall_invariant : ∀ (l : List Inputs) (x y : Nat),
    ((x < FIELD_WIDTH ∧ (y = 0 ∨ y = FIELD_HEIGHT - 1)) ∨
      ((x = 0 ∨ x = FIELD_WIDTH - 1) ∧ y < FIELD_HEIGHT)) →
    (run l).field x y = WALL_VALUE :=
  fun l x y h => (run_inv l).1 x y h

theorem c6_border_wall_invariant_witness :
    (((0 : Nat) < FIELD_WIDTH ∧ ((0 : Nat) = 0 ∨ (0 : Nat) = FIELD_HEIGHT - 1)) ∨
      (((0 : Nat) = 0 ∨ (0 : Nat) = FIELD_WIDTH - 1) ∧ (0 : Nat) < FIELD_HEIGHT)) ∧
    (run []).field 0 0 = WALL_VALUE :=
  ⟨Or.inl ⟨by norm_num [FIELD_WIDTH], Or.inl rfl⟩,
   c6_border_wall_invariant [] 0 0 (Or.inl ⟨by norm_num [FIELD_WIDTH], Or.inl rfl⟩)⟩

/-- C10: no operation of the program ever writes the drain sentinel into a
field cell: in every state reachable from `init()` by any sequence of
`update()` calls with any mouse inputs, no cell holds `DRAIN_VALUE`, so the
stepper's drain branch is unreachable from initialized states. -/
theorem c10_drain_never_written : ∀ (l : List Inputs) (x y : Nat),
    (run l).field x y ≠ DRAIN_VALUE :=
  fun l x y => (run_inv l).2 x y

-- ===========================================================================
-- Claim C4: Pass 2 single-transfer conservation
-- ===========================================================================

/-- C4: a single Pass-2 transfer conserves mass between the source and its
chosen destination neighbor; when the destination-cap check skips the
transfer, the field is left entirely unchanged. -/
theorem c4_pass2_transfer_conservation : ∀ (f : Field) (x y : Nat),
    1 ≤ x → 1 ≤ y → 0 < f x y → f x y < WALL_VALUE →
    ∀ p : Nat × Nat, p = dirPos x y (pass2Dir f x y) →
    (pass2Cell f x y x y + pass2Cell f x y p.1 p.2 = f x y + f p.1 p.2) ∧
    (MAX_WATER ≤ f p.1 p.2 → pass2Cell f x y = f) := by
  intro f x y hx hy h0 hw p hp
  have hne : ¬(x = p.1 ∧ y = p.2) := by
    rw [hp]
    exact dirPos_ne_self x y (pass2Dir f x y) hx hy
  rw [pass2Cell_active f x y ⟨h0, hw⟩, ← hp]
  simp only [transferTarget]
  have hamt_pos : 0 < (if DENSITY_FLOW ≤ f x y then DENSITY_FLOW else f x y) := by
    simp only [DENSITY_FLOW]
    split_ifs <;> omega
  have hamt_le : (if DENSITY_FLOW ≤ f x y then DENSITY_FLOW else f x y) ≤ f x y := by
    split_ifs <;> omega
  rw [if_pos hamt_pos]
  by_cases hg : f p.1 p.2 < MAX_WATER
  · rw [if_pos hg]
    have hr1 : setCell f p.1 p.2
        (f p.1 p.2 + if DENSITY_FLOW ≤ f x y then DENSITY_FLOW else f x y) x y
        = f x y := setCell_ne _ _ _ _ _ _ hne
    constructor
    · rw [setCell_self, hr1]
      have hq : setCell (setCell f p.1 p.2
          (f p.1 p.2 + if DENSITY_FLOW ≤ f x y then DENSITY_FLOW else f x y))
          x y (f x y - if DENSITY_FLOW ≤ f x y then DENSITY_FLOW else f x y)
          p.1 p.2
          = f p.1 p.2 + if DENSITY_FLOW ≤ f x y then DENSITY_FLOW else f x y := by
        rw [setCell_ne _ _ _ _ _ _ (fun hc => hne ⟨hc.1.symm, hc.2.symm⟩)]
        exact setCell_self _ _ _ _
      rw [hq]
      omega
    · intro hge
      exact absurd hg (by omega)
  · rw [if_neg hg]
    exact ⟨rfl, fun _ => rfl⟩

/-- A concrete field for the C4 witness: a single active cell of density 3
in an otherwise empty grid. -/
def c4field : Field := setCell (fun _ _ => 0) 5 5 3

theorem c4_pass2_transfer_conservation_witness :
    (0 < c4field 5 5 ∧ c4field 5 5 < WALL_VALUE ∧
      ((5, 6) : Nat × Nat) = dirPos 5 5 (pass2Dir c4field 5 5)) ∧
    pass2Cell c4field 5 5 5 5 + pass2Cell c4field 5 5 5 6 =
      c4field 5 5 + c4field 5 6 := by
  refine ⟨by decide, ?_⟩
  exact (c4_pass2_transfer_conservation c4field 5 5 (by norm_num) (by norm_num)
    (by decide) (by decide) (5, 6) (by decide)).1

-- ===========================================================================
-- Claim C7: walkLine endpoint symmetry
-- ===========================================================================

/-- Swapping the endpoints of a vertical-dominant line with equal x produces
the same cell list: the minor-axis increment is exactly zero either way. -/
theorem walkCore_swap_vertical (x y1 y2 : Int) :
    walkCore x y1 x y2 = walkCore x y2 x y1 := by
  by_cases hy : y1 = y2
  · subst hy
    rfl
  · have hy' : ¬(y2 = y1) := fun h => hy h.symm
    simp only [walkCore, sub_self, Int.natAbs_zero, gt_iff_lt, Nat.not_lt_zero,
      if_false, Int.cast_zero, zero_div, abs_zero, neg_zero, hy, hy', and_false,
      eq_self_iff_true, true_and, if_false]
    rcases lt_or_gt_of_ne hy with h | h
    · rw [if_neg (by omega), if_pos (by omega)]
    · rw [if_pos (by omega), if_neg (by omega)]

/-- C7: `walkLine(a, b)` and `walkLine(b, a)` visit the same set of cells
(when the x coordinates differ, the normalisation makes the two calls
identical; on vertical lines the walk is the same list either way), and a
degenerate line with identical endpoints visits no cells at all. -/
theorem c7_walkLine_symmetric : ∀ zx1 zy1 zx2 zy2 : Int,
    (∀ p : Int × Int, p ∈ walkLine zx1 zy1 zx2 zy2 ↔ p ∈ walkLine zx2 zy2 zx1 zy1) ∧
    walkLine zx1 zy1 zx1 zy1 = [] := by
  intro zx1 zy1 zx2 zy2
  constructor
  · intro p
    rcases lt_trichotomy zx1 zx2 with h | h | h
    · rw [walkLine, walkLine, if_pos (le_of_lt h), if_neg (not_le.mpr h)]
    · subst h
      rw [walkLine, walkLine, if_pos le_rfl, if_pos le_rfl,
        walkCore_swap_vertical]
    · rw [walkLine, walkLine, if_neg (not_le.mpr h), if_pos (le_of_lt h)]
  · rw [walkLine, if_pos le_rfl]
    unfold walkCore
    rw [if_pos ⟨rfl, rfl⟩]

-- ===========================================================================
-- Claim C9: edit operations mutate only bounds-checked cells
-- ===========================================================================

theorem killWall_frame (mx my : Int) (f : Field) (a b : Nat)
    (hne : killWall mx my f a b ≠ f a b) :
    inFieldInterior (a : Int) (b : Int) = true ∧
    mx - 2 ≤ (a : Int) ∧ (a : Int) < mx - 2 + (ERASER_SIZE : Int) ∧
    my - 2 ≤ (b : Int) ∧ (b : Int) < my - 2 + (ERASER_SIZE : Int) := by
  unfold killWall at hne
  split_ifs at hne with hc
  · exact ⟨hc.2.2.2.2.1, hc.1, hc.2.1, hc.2.2.1, hc.2.2.2.1⟩
  · exact absurd rfl hne

theorem killWater_frame (mx my : Int) (f : Field) (a b : Nat)
    (hne : killWater mx my f a b ≠ f a b) :
    inFieldInterior (a : Int) (b : Int) = true ∧
    mx - 2 ≤ (a : Int) ∧ (a : Int) < mx - 2 + (ERASER_SIZE : Int) ∧
    my - 2 ≤ (b : Int) ∧ (b : Int) < my - 2 + (ERASER_SIZE : Int) := by
  unfold killWater at hne
  split_ifs at hne with hc
  · exact ⟨hc.2.2.2.2.1, hc.1, hc.2.1, hc.2.2.1, hc.2.2.2.1⟩
  · exact absurd rfl hne

theorem addWater_frame (rand : Nat → Nat) (mx my : Int) (f : Field) (k : Nat)
    (a b : Nat) (hne : (addWater rand mx my f k).1 a b ≠ f a b) :
    inFieldInterior (a : Int) (b : Int) = true ∧
    mx - (WATER_ADD_RADIUS : Int) ≤ (a : Int) ∧
    (a : Int) ≤ mx + (WATER_ADD_RADIUS : Int) ∧
    my - 2 * (WATER_ADD_RADIUS : Int) ≤ (b : Int) ∧ (b : Int) < my := by
  revert hne
  suffices h : ∀ a b, (addWater rand mx my f k).1 a b ≠ f a b →
      inFieldInterior (a : Int) (b : Int) = true ∧
      mx - (WATER_ADD_RADIUS : Int) ≤ (a : Int) ∧
      (a : Int) ≤ mx + (WATER_ADD_RADIUS : Int) ∧
      my - 2 * (WATER_ADD_RADIUS : Int) ≤ (b : Int) ∧ (b : Int) < my by
    exact h a b
  unfold addWater
  refine foldl_inv (fun acc : Field × Nat => ∀ a b, acc.1 a b ≠ f a b →
      inFieldInterior (a : Int) (b : Int) = true ∧
      mx - (WATER_ADD_RADIUS : Int) ≤ (a : Int) ∧
      (a : Int) ≤ mx + (WATER_ADD_RADIUS : Int) ∧
      my - 2 * (WATER_ADD_RADIUS : Int) ≤ (b : Int) ∧ (b : Int) < my)
    _ _ ?_ _ ?_
  · intro acc qi hqi hacc
    refine foldl_inv (fun acc : Field × Nat => ∀ a b, acc.1 a b ≠ f a b →
        inFieldInterior (a : Int) (b : Int) = true ∧
        mx - (WATER_ADD_RADIUS : Int) ≤ (a : Int) ∧
        (a : Int) ≤ mx + (WATER_ADD_RADIUS : Int) ∧
        my - 2 * (WATER_ADD_RADIUS : Int) ≤ (b : Int) ∧ (b : Int) < my)
      _ _ ?_ _ hacc
    intro acc2 qj hqj hacc2 a b hne2
    have hqi' := List.mem_range.mp hqi
    have hqj' := List.mem_range.mp hqj
    dsimp only at hne2
    split_ifs at hne2 with hcond
    · dsimp only at hne2
      by_cases hab :
        a = ((qi : Int) - (WATER_ADD_RADIUS : Int) + mx).toNat ∧
        b = ((qj : Int) - 2 * (WATER_ADD_RADIUS : Int) + my).toNat
      · have hint := hcond.1
        rw [inFieldInterior_iff] at hint
        have hca : ((((qi : Int) - (WATER_ADD_RADIUS : Int) + mx).toNat : Nat) : Int)
            = (qi : Int) - (WATER_ADD_RADIUS : Int) + mx :=
          Int.toNat_of_nonneg (le_of_lt hint.1)
        have hcb : ((((qj : Int) - 2 * (WATER_ADD_RADIUS : Int) + my).toNat : Nat) : Int)
            = (qj : Int) - 2 * (WATER_ADD_RADIUS : Int) + my :=
          Int.toNat_of_nonneg (le_of_lt hint.2.2.1)
        rw [hab.1, hab.2, hca, hcb]
        refine ⟨hcond.1, ?_, ?_, ?_, ?_⟩ <;>
          simp only [WATER_ADD_RADIUS] at * <;> omega
      · rw [setCell_ne _ _ _ _ _ _ hab] at hne2
        exact hacc2 a b hne2
    · exact hacc2 a b hne2
  · intro a b hne2
    exact absurd rfl hne2

theorem logicLine_frame (x1 y1 x2 y2 : Int) (f : Field) (a b : Nat)
    (hne : logicLine x1 y1 x2 y2 f a b ≠ f a b) :
    inField (a : Int) (b : Int) = true ∧
    (((a : Int), (b : Int)) : Int × Int) ∈ walkLine x1 y1 x2 y2 := by
  revert hne
  suffices h : ∀ a b, logicLine x1 y1 x2 y2 f a b ≠ f a b →
      inField (a : Int) (b : Int) = true ∧
      (((a : Int), (b : Int)) : Int × Int) ∈ walkLine x1 y1 x2 y2 by
    exact h a b
  unfold logicLine
  refine foldl_inv (fun g : Field => ∀ a b, g a b ≠ f a b →
      inField (a : Int) (b : Int) = true ∧
      (((a : Int), (b : Int)) : Int × Int) ∈ walkLine x1 y1 x2 y2) _ _ ?_ _ ?_
  · intro g p hp hg a b hne2
    split_ifs at hne2 with hin
    · by_cases hab : a = p.1.toNat ∧ b = p.2.toNat
      · have hif := hin
        rw [inField_iff] at hif
        have hca : ((p.1.toNat : Nat) : Int) = p.1 := Int.toNat_of_nonneg hif.1
        have hcb : ((p.2.toNat : Nat) : Int) = p.2 := Int.toNat_of_nonneg hif.2.2.1
        rw [hab.1, hab.2, hca, hcb]
        constructor
        · exact hin
        · have : ((p.1, p.2) : Int × Int) = p := rfl
          rw [this]
          exact hp
      · rw [setCell_ne _ _ _ _ _ _ hab] at hne2
        exact hg a b hne2
    · exact hg a b hne2
  · intro a b hne2
    exact absurd rfl hne2

/-- C9: every edit operation only mutates cells that pass its bounds
predicate (the interior test for the brushes, the in-field test for the
wall-committing line), confines its writes to the brush rectangle or the
walked line, and is a total silent no-op on everything else — in particular,
a brush or line lying wholly outside the field leaves the field entirely
unchanged. -/
theorem c9_edits_respect_bounds :
    (∀ (mx my : Int) (f : Field) (a b : Nat),
      killWall mx my f a b ≠ f a b →
      inFieldInterior (a : Int) (b : Int) = true ∧
      mx - 2 ≤ (a : Int) ∧ (a : Int) < mx - 2 + (ERASER_SIZE : Int) ∧
      my - 2 ≤ (b : Int) ∧ (b : Int) < my - 2 + (ERASER_SIZE : Int)) ∧
    (∀ (mx my : Int) (f : Field) (a b : Nat),
      killWater mx my f a b ≠ f a b →
      inFieldInterior (a : Int) (b : Int) = true ∧
      mx - 2 ≤ (a : Int) ∧ (a : Int) < mx - 2 + (ERASER_SIZE : Int) ∧
      my - 2 ≤ (b : Int) ∧ (b : Int) < my - 2 + (ERASER_SIZE : Int)) ∧
    (∀ (rand : Nat → Nat) (mx my : Int) (f : Field) (k : Nat) (a b : Nat),
      (addWater rand mx my f k).1 a b ≠ f a b →
      inFieldInterior (a : Int) (b : Int) = true ∧
      mx - (WATER_ADD_RADIUS : Int) ≤ (a : Int) ∧
      (a : Int) ≤ mx + (WATER_ADD_RADIUS : Int) ∧
      my - 2 * (WATER_ADD_RADIUS : Int) ≤ (b : Int) ∧ (b : Int) < my) ∧
    (∀ (x1 y1 x2 y2 : Int) (f : Field) (a b : Nat),
      logicLine x1 y1 x2 y2 f a b ≠ f a b →
      inField (a : Int) (b : Int) = true ∧
      (((a : Int), (b : Int)) : Int × Int) ∈ walkLine x1 y1 x2 y2) ∧
    (∀ (x1 y1 x2 y2 : Int) (f : Field),
      (∀ p ∈ walkLine x1 y1 x2 y2, inField p.1 p.2 = false) →
      ∀ a b, logicLine x1 y1 x2 y2 f a b = f a b) ∧
    (∀ (rand : Nat → Nat) (mx my : Int) (f : Field) (k : Nat),
      (∀ a b : Nat, inFieldInterior (a : Int) (b : Int) = true →
        ¬(mx - (WATER_ADD_RADIUS : Int) ≤ (a : Int) ∧
          (a : Int) ≤ mx + (WATER_ADD_RADIUS : Int) ∧
          my - 2 * (WATER_ADD_RADIUS : Int) ≤ (b : Int) ∧ (b : Int) < my)) →
      ∀ a b, (addWater rand mx my f k).1 a b = f a b) := by
  refine ⟨killWall_frame, killWater_frame, addWater_frame, logicLine_frame,
    ?_, ?_⟩
  · intro x1 y1 x2 y2 f hout a b
    by_contra hne
    have h := logicLine_frame x1 y1 x2 y2 f a b hne
    have := hout _ h.2
    rw [h.1] at this
    exact Bool.noConfusion this
  · intro rand mx my f k hout a b
    by_contra hne
    have h := addWater_frame rand mx my f k a b hne
    exact hout a b h.1 h.2

/-- The C9 witness field: a single interior wall at (5, 5). -/
def c9wit : Field := setCell (fun _ _ => 0) 5 5 WALL_VALUE

theorem c9_edits_respect_bounds_witness :
    killWall 5 5 c9wit 5 5 ≠ c9wit 5 5 ∧
    (inFieldInterior ((5 : Nat) : Int) ((5 : Nat) : Int) = true ∧
      (5 : Int) - 2 ≤ ((5 : Nat) : Int) ∧
      ((5 : Nat) : Int) < 5 - 2 + (ERASER_SIZE : Int) ∧
      (5 : Int) - 2 ≤ ((5 : Nat) : Int) ∧
      ((5 : Nat) : Int) < 5 - 2 + (ERASER_SIZE : Int)) :=
  ⟨by decide, c9_edits_respect_bounds.1 5 5 c9wit 5 5 (by decide)⟩

-- ===========================================================================
-- Claim C2: which cells a simulation step can touch
-- ===========================================================================

/-- No intermediate field of a step introduces a drain that was not already
present in the starting field. -/
def Keeps100 (f g : Field) : Prop :=
  ∀ a b, g a b = DRAIN_VALUE → f a b = DRAIN_VALUE

theorem pass1Cell_sentinel (f : Field) (x0 y0 : Nat)
    (hv : f x0 y0 = WALL_VALUE ∨ f x0 y0 = DRAIN_VALUE)
    (hnd : f x0 (y0 + 1) ≠ DRAIN_VALUE) (g : Field) (x y : Nat)
    (hx : 1 ≤ x) (hy : 1 ≤ y)
    (hk : g x0 y0 = f x0 y0 ∧ Keeps100 f g) :
    pass1Cell g x y x0 y0 = f x0 y0 ∧ Keeps100 f (pass1Cell g x y) := by
  constructor
  · rcases pass1Cell_change g x y hx hy x0 y0 with hc | ⟨ha, hb, hdr, _⟩ | ⟨hlt, _⟩
    · rw [hc]
      exact hk.1
    · exact absurd (hk.2 x0 (y0 + 1) (by rw [ha, hb]; exact hdr)) hnd
    · rw [hk.1] at hlt
      rcases hv with hv | hv <;> rw [hv] at hlt <;>
        simp [WALL_VALUE, DRAIN_VALUE] at hlt
  · intro a b hab
    rcases pass1Cell_change g x y hx hy a b with hc | ⟨_, _, _, hz⟩ | ⟨_, hle⟩
    · exact hk.2 a b (by rw [← hc]; exact hab)
    · rw [hz] at hab
      exact absurd hab (by simp [DRAIN_VALUE])
    · rw [hab] at hle
      exact absurd hle (by simp [MAX_WATER, DRAIN_VALUE])

theorem pass2Cell_sentinel (f : Field) (x0 y0 : Nat)
    (hv : f x0 y0 = WALL_VALUE ∨ f x0 y0 = DRAIN_VALUE) (g : Field) (x y : Nat)
    (hx : 1 ≤ x) (hy : 1 ≤ y)
    (hk : g x0 y0 = f x0 y0 ∧ Keeps100 f g) :
    pass2Cell g x y x0 y0 = f x0 y0 ∧ Keeps100 f (pass2Cell g x y) := by
  constructor
  · rcases pass2Cell_change g x y hx hy x0 y0 with hc | ⟨hlt, _⟩
    · rw [hc]
      exact hk.1
    · rw [hk.1] at hlt
      rcases hv with hv | hv <;> rw [hv] at hlt <;>
        simp [WALL_VALUE, DRAIN_VALUE] at hlt
  · intro a b hab
    rcases pass2Cell_change g x y hx hy a b with hc | ⟨_, hle⟩
    · exact hk.2 a b (by rw [← hc]; exact hab)
    · rw [hab] at hle
      exact absurd hle (by simp [MAX_WATER, DRAIN_VALUE])

theorem pass1_sentinel (f : Field) (x0 y0 : Nat)
    (hv : f x0 y0 = WALL_VALUE ∨ f x0 y0 = DRAIN_VALUE)
    (hnd : f x0 (y0 + 1) ≠ DRAIN_VALUE) :
    pass1 f x0 y0 = f x0 y0 ∧ Keeps100 f (pass1 f) := by
  unfold pass1
  refine foldl_inv (fun g : Field => g x0 y0 = f x0 y0 ∧ Keeps100 f g) _ _ ?_ f
    ⟨rfl, fun _ _ h => h⟩
  intro g i _ hg
  unfold pass1Col
  refine foldl_inv (fun g2 : Field => g2 x0 y0 = f x0 y0 ∧ Keeps100 f g2) _ _ ?_ g hg
  intro g2 j hj hg2
  have hj' := List.mem_range.mp hj
  exact pass1Cell_sentinel f x0 y0 hv hnd g2 _ _ (by omega)
    (by simp only [FIELD_HEIGHT] at *; omega) hg2

theorem pass2_sentinel (f f0 : Field) (x0 y0 : Nat)
    (hv : f0 x0 y0 = WALL_VALUE ∨ f0 x0 y0 = DRAIN_VALUE)
    (h0 : f x0 y0 = f0 x0 y0 ∧ Keeps100 f0 f) :
    pass2 f x0 y0 = f0 x0 y0 ∧ Keeps100 f0 (pass2 f) := by
  unfold pass2
  refine foldl_inv (fun g : Field => g x0 y0 = f0 x0 y0 ∧ Keeps100 f0 g) _ _ ?_ f h0
  intro g i hi hg
  unfold pass2Col
  refine foldl_inv (fun g2 : Field => g2 x0 y0 = f0 x0 y0 ∧ Keeps100 f0 g2) _ _ ?_ g hg
  intro g2 j hj hg2
  have hi' := List.mem_range.mp hi
  have hj' := List.mem_range.mp hj
  exact pass2Cell_sentinel f0 x0 y0 hv g2 _ _
    (by simp only [SCREEN_WIDTH] at *; omega)
    (by simp only [FIELD_HEIGHT] at *; omega) hg2

/-- C2 (amended with the drain exception): a simulation step preserves every
cell holding the wall or drain sentinel whose neighbor directly below is not
a drain. -/
theorem c2_sentinel_cells_preserved : ∀ (f : Field) (x y : Nat),
    (f x y = WALL_VALUE ∨ f x y = DRAIN_VALUE) → f x (y + 1) ≠ DRAIN_VALUE →
    simStep f x y = f x y := by
  intro f x y hv hnd
  unfold simStep
  exact (pass2_sentinel (pass1 f) f x y hv (pass1_sentinel f x y hv hnd)).1

theorem c2_sentinel_cells_preserved_witness :
    (resetField 0 0 = WALL_VALUE ∨ resetField 0 0 = DRAIN_VALUE) ∧
    resetField 0 (0 + 1) ≠ DRAIN_VALUE ∧
    simStep resetField 0 0 = resetField 0 0 :=
  ⟨Or.inl (by decide), by decide,
   c2_sentinel_cells_preserved resetField 0 0 (Or.inl (by decide)) (by decide)⟩

-- ===========================================================================
-- Locality machinery: computing a step on fields that differ from the
-- post-reset field only in column 5
-- ===========================================================================

/-- The field agrees with the post-reset field outside column 5. -/
def OffCol5 (f : Field) : Prop := ∀ x y, x ≠ 5 → f x y = resetField x y

theorem OffCol5_resetField : OffCol5 resetField := fun _ _ _ => rfl

theorem OffCol5_setCell (f : Field) (h : OffCol5 f) (y0 v : Nat) :
    OffCol5 (setCell f 5 y0 v) := by
  intro x y hx
  rw [setCell_ne _ _ _ _ _ _ (fun hc => hx hc.1)]
  exact h x y hx

theorem resetField_cases (x y : Nat) :
    resetField x y = 0 ∨ resetField x y = WALL_VALUE := by
  unfold resetField
  split_ifs <;> simp

/-- A Pass 1 column sweep over a column with no active cells and no drains
below its cells does nothing. -/
theorem pass1Col_fixed (f : Field) (x : Nat)
    (h : ∀ y, 1 ≤ y → y ≤ FIELD_HEIGHT - 2 →
      f x (y + 1) ≠ DRAIN_VALUE ∧ ¬(0 < f x y ∧ f x y < WALL_VALUE)) :
    pass1Col f x = f := by
  unfold pass1Col
  refine foldl_fixed ?_
  intro j hj
  have hj' := List.mem_range.mp hj
  have h1 : 1 ≤ FIELD_HEIGHT - 2 - j := by simp only [FIELD_HEIGHT] at *; omega
  have h2 : FIELD_HEIGHT - 2 - j ≤ FIELD_HEIGHT - 2 := by omega
  exact pass1Cell_id f x _ (h _ h1 h2).1 (h _ h1 h2).2

/-- A Pass 2 column sweep over a column with no active cells does nothing. -/
theorem pass2Col_fixed (f : Field) (x : Nat)
    (h : ∀ y, 1 ≤ y → y ≤ FIELD_HEIGHT - 2 →
      ¬(0 < f x y ∧ f x y < WALL_VALUE)) :
    pass2Col f x = f := by
  unfold pass2Col
  refine foldl_fixed ?_
  intro j hj
  have hj' := List.mem_range.mp hj
  have h1 : 1 ≤ FIELD_HEIGHT - 2 - j := by simp only [FIELD_HEIGHT] at *; omega
  have h2 : FIELD_HEIGHT - 2 - j ≤ FIELD_HEIGHT - 2 := by omega
  exact pass2Cell_id f x _ (h _ h1 h2)

theorem offCol5_inactive (f : Field) (h : OffCol5 f) (x : Nat) (hx : x ≠ 5) :
    ∀ y, 1 ≤ y → y ≤ FIELD_HEIGHT - 2 →
      f x (y + 1) ≠ DRAIN_VALUE ∧ ¬(0 < f x y ∧ f x y < WALL_VALUE) := by
  intro y _ _
  rw [h x (y + 1) hx, h x y hx]
  constructor
  · rcases resetField_cases x (y + 1) with hh | hh <;> rw [hh] <;>
      simp [WALL_VALUE, DRAIN_VALUE]
  · rcases resetField_cases x y with hh | hh <;> rw [hh] <;>
      simp [WALL_VALUE]

theorem pass1Col_fixed_off5 (f : Field) (h : OffCol5 f) (x : Nat) (hx : x ≠ 5) :
    pass1Col f x = f :=
  pass1Col_fixed f x (offCol5_inactive f h x hx)

theorem pass2Col_fixed_off5 (f : Field) (h : OffCol5 f) (x : Nat) (hx : x ≠ 5) :
    pass2Col f x = f :=
  pass2Col_fixed f x (fun y h1 h2 => (offCol5_inactive f h x hx y h1 h2).2)

/-- Pass 1 on a field special only in column 5 reduces to its column-5
sweep, provided that sweep again leaves a column-5-only field. -/
theorem pass1_eq_of_off5 (f g : Field) (hf : OffCol5 f)
    (hcol : pass1Col f 5 = g) (hg : OffCol5 g) : pass1 f = g := by
  unfold pass1
  have hsplit : List.range (SCREEN_WIDTH - 2) =
      (List.range 4 ++ [4]) ++ List.map (fun t => 5 + t) (List.range 313) := by
    decide
  rw [hsplit, List.foldl_append, List.foldl_append, List.foldl_map]
  have h14 : List.foldl (fun g2 i => pass1Col g2 (i + 1)) f (List.range 4) = f := by
    refine foldl_fixed ?_
    intro i hi
    have hi' := List.mem_range.mp hi
    exact pass1Col_fixed_off5 f hf (i + 1) (by omega)
  rw [h14, List.foldl_cons, List.foldl_nil]
  rw [show pass1Col f (4 + 1) = g from hcol]
  refine foldl_fixed ?_
  intro t _
  exact pass1Col_fixed_off5 g hg (5 + t + 1) (by omega)

/-- Pass 2 on a field special only in column 5 reduces to its column-5
sweep, provided that sweep again leaves a column-5-only field. -/
theorem pass2_eq_of_off5 (f g : Field) (hf : OffCol5 f)
    (hcol : pass2Col f 5 = g) (hg : OffCol5 g) : pass2 f = g := by
  unfold pass2
  have hsplit : List.range (SCREEN_WIDTH - 2) =
      (List.range 313 ++ [313]) ++ List.map (fun t => 314 + t) (List.range 4) := by
    decide
  rw [hsplit, List.foldl_append, List.foldl_append, List.foldl_map]
  have hpre : List.foldl (fun g2 i => pass2Col g2 (SCREEN_WIDTH - 2 - i)) f
      (List.range 313) = f := by
    refine foldl_fixed ?_
    intro i hi
    have hi' := List.mem_range.mp hi
    refine pass2Col_fixed_off5 f hf _ ?_
    simp only [SCREEN_WIDTH]
    omega
  rw [hpre, List.foldl_cons, List.foldl_nil]
  rw [show pass2Col f (SCREEN_WIDTH - 2 - 313) = g from hcol]
  refine foldl_fixed ?_
  intro t ht
  have ht' := List.mem_range.mp ht
  refine pass2Col_fixed_off5 g hg _ ?_
  simp only [SCREEN_WIDTH]
  omega

/-- A Pass 1 column sweep whose cells are all inactive except row 1 reduces
to the single body at row 1. -/
theorem pass1Col_split_last (f : Field) (x : Nat)
    (hpre : ∀ y, 2 ≤ y → y ≤ FIELD_HEIGHT - 2 →
      f x (y + 1) ≠ DRAIN_VALUE ∧ ¬(0 < f x y ∧ f x y < WALL_VALUE)) :
    pass1Col f x = pass1Cell f x 1 := by
  unfold pass1Col
  have hsplit : List.range (FIELD_HEIGHT - 2) = List.range 197 ++ [197] := by
    decide
  rw [hsplit, List.foldl_append]
  have hfix : List.foldl (fun h j => pass1Cell h x (FIELD_HEIGHT - 2 - j)) f
      (List.range 197) = f := by
    refine foldl_fixed ?_
    intro j hj
    have hj' := List.mem_range.mp hj
    have h1 : 2 ≤ FIELD_HEIGHT - 2 - j := by simp only [FIELD_HEIGHT]; omega
    have h2 : FIELD_HEIGHT - 2 - j ≤ FIELD_HEIGHT - 2 := by
      simp only [FIELD_HEIGHT]
      omega
    exact pass1Cell_id f x _ (hpre _ h1 h2).1 (hpre _ h1 h2).2
  rw [hfix, List.foldl_cons, List.foldl_nil]
  rfl

/-- A Pass 2 column sweep whose cells are all inactive except rows 2 and 1
reduces to the two bodies at rows 2 then 1. -/
theorem pass2Col_split_last2 (f : Field) (x : Nat)
    (hpre : ∀ y, 3 ≤ y → y ≤ FIELD_HEIGHT - 2 →
      ¬(0 < f x y ∧ f x y < WALL_VALUE)) :
    pass2Col f x = pass2Cell (pass2Cell f x 2) x 1 := by
  unfold pass2Col
  have hsplit : List.range (FIELD_HEIGHT - 2) = List.range 196 ++ [196, 197] := by
    decide
  rw [hsplit, List.foldl_append]
  have hfix : List.foldl (fun h j => pass2Cell h x (FIELD_HEIGHT - 2 - j)) f
      (List.range 196) = f := by
    refine foldl_fixed ?_
    intro j hj
    have hj' := List.mem_range.mp hj
    have h1 : 3 ≤ FIELD_HEIGHT - 2 - j := by simp only [FIELD_HEIGHT]; omega
    have h2 : FIELD_HEIGHT - 2 - j ≤ FIELD_HEIGHT - 2 := by
      simp only [FIELD_HEIGHT]
      omega
    exact pass2Cell_id f x _ (hpre _ h1 h2)
  rw [hfix, List.foldl_cons, List.foldl_cons, List.foldl_nil]
  rfl

/-- Shortcut evaluation of the guarded Pass 1 unit transfer. -/
theorem incTarget_eval (g : Field) (p : Nat × Nat) (hg : g p.1 p.2 < MAX_WATER) :
    incTarget g p = setCell g p.1 p.2 (g p.1 p.2 + 1) := by
  simp only [incTarget]
  rw [if_pos hg]

/-- Shortcut evaluation of the guarded Pass 2 transfer. -/
theorem transferTarget_eval (f : Field) (p : Nat × Nat) (x y amt : Nat)
    (hamt : (if DENSITY_FLOW ≤ f x y then DENSITY_FLOW else f x y) = amt)
    (h0 : 0 < amt) (hg : f p.1 p.2 < MAX_WATER) :
    transferTarget f p x y =
      setCell (setCell f p.1 p.2 (f p.1 p.2 + amt)) x y
        (setCell f p.1 p.2 (f p.1 p.2 + amt) x y - amt) := by
  simp only [transferTarget, hamt]
  rw [if_pos h0, if_pos hg]

-- ===========================================================================
-- Claim C1: Scenario B, one tick on a single 5-density drop at (5, 1)
-- ===========================================================================

/-- Scenario B's field: post-reset with `field[5][1] = 5`. -/
def scenB : Field := setCell resetField 5 1 5

/-- Scenario B after Pass 1: the drop decays to 4 and one unit lands below. -/
def scenB1 : Field := setCell (setCell scenB 5 1 4) 5 2 1

/-- Scenario B during Pass 2, after the body at (5, 2). -/
def scenB2 : Field := setCell (setCell scenB1 5 3 1) 5 2 0

/-- Scenario B after the full step. -/
def scenB3 : Field := setCell (setCell scenB2 5 2 2) 5 1 2

theorem scenB_pass1 : pass1 scenB = scenB1 := by
  refine pass1_eq_of_off5 scenB scenB1 (OffCol5_setCell _ OffCol5_resetField _ _) ?_
    (OffCol5_setCell _ (OffCol5_setCell _
      (OffCol5_setCell _ OffCol5_resetField _ _) _ _) _ _)
  rw [pass1Col_split_last scenB 5 ?hpre]
  case hpre =>
    intro y h1 _
    unfold scenB
    constructor
    · rw [setCell_ne _ _ _ _ _ _ (by omega)]
      rcases resetField_cases 5 (y + 1) with hh | hh <;> rw [hh] <;>
        simp [WALL_VALUE, DRAIN_VALUE]
    · rw [setCell_ne _ _ _ _ _ _ (by omega)]
      rcases resetField_cases 5 y with hh | hh <;> rw [hh] <;> simp [WALL_VALUE]
  rw [pass1Cell_active scenB 5 1 (by decide) (by decide)]
  rw [show pass1Dir (setCell scenB 5 1 (scenB 5 1 - 1)) 5 1 = 2 from by decide]
  rw [dirPos_two]
  rw [incTarget_eval _ _ (by decide)]
  rw [show scenB 5 1 - 1 = 4 from by decide]
  rw [show setCell scenB 5 1 4 (5, 1 + 1).1 (5, 1 + 1).2 = 0 from by decide]
  rfl

theorem scenB_pass2 : pass2 scenB1 = scenB3 := by
  have hoff1 : OffCol5 scenB1 :=
    OffCol5_setCell _ (OffCol5_setCell _
      (OffCol5_setCell _ OffCol5_resetField _ _) _ _) _ _
  have hoff3 : OffCol5 scenB3 := by
    refine OffCol5_setCell _ (OffCol5_setCell _ (OffCol5_setCell _
      (OffCol5_setCell _ hoff1 _ _) _ _) _ _) _ _
  refine pass2_eq_of_off5 scenB1 scenB3 hoff1 ?_ hoff3
  rw [pass2Col_split_last2 scenB1 5 ?hpre]
  case hpre =>
    intro y h1 _
    have he : scenB1 5 y = resetField 5 y := by
      unfold scenB1 scenB
      rw [setCell_ne _ _ _ _ _ _ (by omega), setCell_ne _ _ _ _ _ _ (by omega),
        setCell_ne _ _ _ _ _ _ (by omega)]
    rw [he]
    rcases resetField_cases 5 y with hh | hh <;> rw [hh] <;> simp [WALL_VALUE]
  have h52 : pass2Cell scenB1 5 2 = scenB2 := by
    rw [pass2Cell_active scenB1 5 2 (by decide)]
    rw [show pass2Dir scenB1 5 2 = 2 from by decide]
    rw [dirPos_two]
    rw [transferTarget_eval scenB1 (5, 2 + 1) 5 2 1 (by decide) (by norm_num)
      (by decide)]
    rw [show scenB1 (5, 2 + 1).1 (5, 2 + 1).2 + 1 = 1 from by decide]
    rw [show setCell scenB1 (5, 2 + 1).1 (5, 2 + 1).2 1 5 2 - 1 = 0 from by decide]
    rfl
  rw [h52]
  rw [pass2Cell_active scenB2 5 1 (by decide)]
  rw [show pass2Dir scenB2 5 1 = 2 from by decide]
  rw [dirPos_two]
  rw [transferTarget_eval scenB2 (5, 1 + 1) 5 1 2 (by decide) (by norm_num)
    (by decide)]
  rw [show scenB2 (5, 1 + 1).1 (5, 1 + 1).2 + 2 = 2 from by decide]
  rw [show setCell scenB2 (5, 1 + 1).1 (5, 1 + 1).2 2 5 1 - 2 = 2 from by decide]
  rfl

/-- One full step on Scenario B. -/
theorem scenB_simStep : simStep scenB = scenB3 := by
  unfold simStep
  rw [scenB_pass1, scenB_pass2]

/-- C1 counterexample: after one full simulation step (both passes) on the
post-reset field with `field[5][1] = 5`, cell (5, 2) holds 2, not 1. -/
theorem c1_counterexample : simStep scenB 5 2 ≠ 1 := by
  rw [scenB_simStep]
  decide

/-- C1 (amended): one tick of the stepper on Scenario B leaves
`field[5][2] = 2` (Pass 1 moves one unit down and leaves 4 at the source;
Pass 2 then moves that unit on to (5, 3) and transfers 2 more units from
(5, 1) into (5, 2)); the full post-state of column 5 is (5,1) = 2,
(5,2) = 2, (5,3) = 1. -/
theorem c1_scenarioB_one_tick :
    simStep scenB 5 2 = 2 ∧ simStep scenB 5 1 = 2 ∧ simStep scenB 5 3 = 1 := by
  rw [scenB_simStep]
  exact ⟨by decide, by decide, by decide⟩

-- ===========================================================================
-- C2 counterexample: a wall directly above a drain is zeroed by the step
-- ===========================================================================

/-- The C2 counterexample field: post-reset, a drain at (5, 2) and a wall
at (5, 1). -/
def c2field : Field :=
  setCell (setCell resetField 5 2 DRAIN_VALUE) 5 1 WALL_VALUE

/-- The C2 counterexample field after the step: the wall was zeroed. -/
def c2mid : Field := setCell c2field 5 1 0

theorem c2field_pass1 : pass1 c2field = c2mid := by
  have hoff : OffCol5 c2field :=
    OffCol5_setCell _ (OffCol5_setCell _ OffCol5_resetField _ _) _ _
  refine pass1_eq_of_off5 c2field c2mid hoff ?_ (OffCol5_setCell _ hoff _ _)
  rw [pass1Col_split_last c2field 5 ?hpre]
  case hpre =>
    intro y h1 h2
    by_cases hy : y = 2
    · subst hy
      exact ⟨by decide, by decide⟩
    · have he : c2field 5 y = resetField 5 y := by
        unfold c2field
        rw [setCell_ne _ _ _ _ _ _ (by omega), setCell_ne _ _ _ _ _ _ (by omega)]
      have he1 : c2field 5 (y + 1) = resetField 5 (y + 1) := by
        unfold c2field
        rw [setCell_ne _ _ _ _ _ _ (by omega), setCell_ne _ _ _ _ _ _ (by omega)]
      rw [he, he1]
      constructor
      · rcases resetField_cases 5 (y + 1) with hh | hh <;> rw [hh] <;>
          simp [WALL_VALUE, DRAIN_VALUE]
      · rcases resetField_cases 5 y with hh | hh <;> rw [hh] <;> simp [WALL_VALUE]
  rw [pass1Cell_drain c2field 5 1 (by decide)]
  rfl

theorem c2field_pass2 : pass2 c2mid = c2mid := by
  have hoff : OffCol5 c2mid :=
    OffCol5_setCell _ (OffCol5_setCell _
      (OffCol5_setCell _ OffCol5_resetField _ _) _ _) _ _
  refine pass2_eq_of_off5 c2mid c2mid hoff ?_ hoff
  refine pass2Col_fixed c2mid 5 ?_
  intro y h1 h2
  by_cases hy1 : y = 1
  · subst hy1
    decide
  · by_cases hy2 : y = 2
    · subst hy2
      decide
    · have he : c2mid 5 y = resetField 5 y := by
        unfold c2mid c2field
        rw [setCell_ne _ _ _ _ _ _ (by omega), setCell_ne _ _ _ _ _ _ (by omega),
          setCell_ne _ _ _ _ _ _ (by omega)]
      rw [he]
      rcases resetField_cases 5 y with hh | hh <;> rw [hh] <;> simp [WALL_VALUE]

/-- C2 counterexample: with a drain at (5, 2), the wall cell at (5, 1) is
mutated (zeroed) by a single simulation step. -/
theorem c2_counterexample :
    c2field 5 1 = WALL_VALUE ∧ simStep c2field 5 1 = 0 ∧
    simStep c2field 5 1 ≠ c2field 5 1 := by
  have hs : simStep c2field = c2mid := by
    unfold simStep
    rw [c2field_pass1, c2field_pass2]
  rw [hs]
  exact ⟨by decide, by decide, by decide⟩

-- ===========================================================================
-- Claim C5: Pass 2 can exceed MAX_WATER, but only by DENSITY_FLOW - 1
-- ===========================================================================

/-- Every cell after a full Pass 2 is either at most `MAX_WATER + 1` or
unchanged from before the pass. -/
theorem pass2_excess (f : Field) :
    ∀ a b, pass2 f a b ≤ MAX_WATER + 1 ∨ pass2 f a b = f a b := by
  unfold pass2
  refine foldl_inv
    (fun g : Field => ∀ a b, g a b ≤ MAX_WATER + 1 ∨ g a b = f a b) _ _ ?_ f ?_
  · intro g i hi hg
    unfold pass2Col
    refine foldl_inv
      (fun g2 : Field => ∀ a b, g2 a b ≤ MAX_WATER + 1 ∨ g2 a b = f a b) _ _ ?_ g hg
    intro g2 j hj hg2 a b
    have hi' : i < SCREEN_WIDTH - 2 := List.mem_range.mp hi
    have hj' : j < FIELD_HEIGHT - 2 := List.mem_range.mp hj
    rcases pass2Cell_change g2 (SCREEN_WIDTH - 2 - i) (FIELD_HEIGHT - 2 - j)
        (by simp only [SCREEN_WIDTH] at *; omega)
        (by simp only [FIELD_HEIGHT] at *; omega) a b with hc | ⟨_, hle⟩
    · rw [hc]
      exact hg2 a b
    · left
      exact hle
  · intro a b
    right
    rfl

/-- A concrete field witnessing the Pass-2 overflow: an active cell of
density 50 whose only non-wall neighbor (below) already holds 96. -/
def c5field : Field :=
  setCell (setCell (setCell (setCell (setCell (fun _ _ => 0)
    5 5 50) 5 6 96) 4 5 WALL_VALUE) 6 5 WALL_VALUE) 5 4 WALL_VALUE

/-- C5: a Pass-2 transfer can push a destination cell strictly above
`MAX_WATER` (here to 98), and for every field whose water cells are at most
`MAX_WATER` before the pass, every water cell after Pass 2 is at most
`MAX_WATER + (DENSITY_FLOW - 1) = 98`, never reaching the wall sentinel. -/
theorem c5_pass2_overflow_bounded :
    (MAX_WATER < pass2Cell c5field 5 5 5 6 ∧ pass2Cell c5field 5 5 5 6 = 98) ∧
    ∀ f : Field, (∀ x y, f x y < WALL_VALUE → f x y ≤ MAX_WATER) →
      ∀ x y, f x y < WALL_VALUE →
        pass2 f x y ≤ MAX_WATER + (DENSITY_FLOW - 1) := by
  constructor
  · exact ⟨by decide, by decide⟩
  · intro f hf x y hxy
    rcases pass2_excess f x y with h | h
    · simpa [MAX_WATER, DENSITY_FLOW] using h
    · rw [h]
      have := hf x y hxy
      simp only [MAX_WATER, DENSITY_FLOW] at *
      omega

-- ===========================================================================
-- Claim C3: the Pass 1 per-cell rule
-- ===========================================================================

/-- The Pass 1 sequential scan (down default, then up, left, right, strict
improvement only) picks exactly the first direction, in the scan order down,
up, left, right, whose value attains the minimum of the four neighbors. -/
theorem pass1Dir_spec (g : Field) (x y : Nat) :
    pass1Dir g x y =
      if g x (y + 1) =
          min (min (min (g x (y + 1)) (g x (y - 1))) (g (x - 1) y)) (g (x + 1) y)
        then 2
      else if g x (y - 1) =
          min (min (min (g x (y + 1)) (g x (y - 1))) (g (x - 1) y)) (g (x + 1) y)
        then 1
      else if g (x - 1) y =
          min (min (min (g x (y + 1)) (g x (y - 1))) (g (x - 1) y)) (g (x + 1) y)
        then 3
      else 4 := by
  simp only [pass1Dir]
  split_ifs <;> omega

/-- Modelled from the claim's words for C3: first decrement the active cell
by 1, then select as flow target the minimum-valued of the four orthogonal
neighbors with first-seen-wins on ties in scan order down, up, left, right,
and increment that neighbor by 1 if and only if its value is below
`MAX_WATER`. -/
def pass1CellClaimed (f : Field) (x y : Nat) : Field :=
  let g := setCell f x y (f x y - 1)
  let m := min (min (min (f x (y + 1)) (f x (y - 1))) (f (x - 1) y)) (f (x + 1) y)
  let p : Nat × Nat :=
    if f x (y + 1) = m then (x, y + 1)
    else if f x (y - 1) = m then (x, y - 1)
    else if f (x - 1) y = m then (x - 1, y)
    else (x + 1, y)
  if g p.1 p.2 < MAX_WATER then setCell g p.1 p.2 (g p.1 p.2 + 1) else g

/-- C3 (amended with the drain exception): at an interior active cell whose
cell below is not a drain, the Pass 1 body is exactly the claimed
decrement-then-first-minimum single-unit flow. -/
theorem c3_pass1_cell_rule : ∀ (f : Field) (x y : Nat),
    0 < x → x < FIELD_WIDTH - 1 → 0 < y → y < FIELD_HEIGHT - 1 →
    0 < f x y → f x y < WALL_VALUE → f x (y + 1) ≠ DRAIN_VALUE →
    pass1Cell f x y = pass1CellClaimed f x y := by
  intro f x y hx0 hx1 hy0 hy1 h0 hw hD
  rw [pass1Cell_active f x y hD ⟨h0, hw⟩]
  have e1 : setCell f x y (f x y - 1) x (y + 1) = f x (y + 1) :=
    setCell_ne _ _ _ _ _ _ (by omega)
  have e2 : setCell f x y (f x y - 1) x (y - 1) = f x (y - 1) :=
    setCell_ne _ _ _ _ _ _ (by omega)
  have e3 : setCell f x y (f x y - 1) (x - 1) y = f (x - 1) y :=
    setCell_ne _ _ _ _ _ _ (by omega)
  have e4 : setCell f x y (f x y - 1) (x + 1) y = f (x + 1) y :=
    setCell_ne _ _ _ _ _ _ (by omega)
  rw [pass1Dir_spec, e1, e2, e3, e4]
  have hp : dirPos x y
      (if f x (y + 1) =
          min (min (min (f x (y + 1)) (f x (y - 1))) (f (x - 1) y)) (f (x + 1) y)
        then 2
      else if f x (y - 1) =
          min (min (min (f x (y + 1)) (f x (y - 1))) (f (x - 1) y)) (f (x + 1) y)
        then 1
      else if f (x - 1) y =
          min (min (min (f x (y + 1)) (f x (y - 1))) (f (x - 1) y)) (f (x + 1) y)
        then 3
      else 4) =
      (if f x (y + 1) =
          min (min (min (f x (y + 1)) (f x (y - 1))) (f (x - 1) y)) (f (x + 1) y)
        then (x, y + 1)
      else if f x (y - 1) =
          min (min (min (f x (y + 1)) (f x (y - 1))) (f (x - 1) y)) (f (x + 1) y)
        then (x, y - 1)
      else if f (x - 1) y =
          min (min (min (f x (y + 1)) (f x (y - 1))) (f (x - 1) y)) (f (x + 1) y)
        then (x - 1, y)
      else (x + 1, y)) := by
    split_ifs <;> rfl
  rw [hp]
  simp only [pass1CellClaimed, incTarget]

/-- The C3 counterexample field: an active cell of density 5 directly above
a drain cell. -/
def c3field : Field := setCell (setCell (fun _ _ => 0) 5 2 DRAIN_VALUE) 5 1 5

/-- C3 counterexample: on an interior active cell sitting on a drain, Pass 1
zeroes the cell instead of decrementing it, so the claimed
decrement-then-flow behavior fails as stated. -/
theorem c3_counterexample :
    0 < c3field 5 1 ∧ c3field 5 1 < WALL_VALUE ∧
    pass1Cell c3field 5 1 5 1 = 0 ∧ c3field 5 1 - 1 = 4 ∧
    pass1Cell c3field 5 1 5 1 ≠ c3field 5 1 - 1 := by
  decide

/-- The C3 witness field: an isolated active cell of density 5. -/
def c3wit : Field := setCell (fun _ _ => 0) 5 1 5

theorem c3_pass1_cell_rule_witness :
    ((0 : Nat) < 5 ∧ 5 < FIELD_WIDTH - 1 ∧ (0 : Nat) < 1 ∧ 1 < FIELD_HEIGHT - 1 ∧
      0 < c3wit 5 1 ∧ c3wit 5 1 < WALL_VALUE ∧ c3wit 5 (1 + 1) ≠ DRAIN_VALUE) ∧
    pass1Cell c3wit 5 1 = pass1CellClaimed c3wit 5 1 :=
  ⟨by refine ⟨by norm_num, by norm_num [FIELD_WIDTH], by norm_num,
      by norm_num [FIELD_HEIGHT], by decide, by decide, by decide⟩,
   c3_pass1_cell_rule c3wit 5 1 (by norm_num) (by norm_num [FIELD_WIDTH])
     (by norm_num) (by norm_num [FIELD_HEIGHT]) (by decide) (by decide) (by decide)⟩

theorem c5_pass2_overflow_bounded_witness :
    (∀ x y, resetField x y < WALL_VALUE → resetField x y ≤ MAX_WATER) ∧
    resetField 5 5 < WALL_VALUE ∧
    pass2 resetField 5 5 ≤ MAX_WATER + (DENSITY_FLOW - 1) := by
  have hres : ∀ x y, resetField x y < WALL_VALUE → resetField x y ≤ MAX_WATER := by
    intro x y h
    simp only [resetField, WALL_VALUE, MAX_WATER] at *
    split_ifs at h ⊢ <;> omega
  exact ⟨hres, by decide,
    c5_pass2_overflow_bounded.2 resetField hres 5 5 (by decide)⟩

-- ===========================================================================
-- Claim C8: mutually exclusive tool buttons
-- ===========================================================================

/-- How many of the three tool buttons (pencil, eraser-wall, eraser-water)
show pressed. -/
def toolCount (bs : Nat → TButton) : Nat :=
  (if (bs 1).isDown then 1 else 0) + (if (bs 2).isDown then 1 else 0) +
    (if (bs 3).isDown then 1 else 0)

/-- How many of the two draw-mode buttons (line, free) show pressed. -/
def drawCount (bs : Nat → TButton) : Nat :=
  (if (bs 4).isDown then 1 else 0) + (if (bs 5).isDown then 1 else 0)

/-- The button-state invariant: exactly one tool button and exactly one
draw-mode button pressed, and none of the five is a toggler (so the flash
effect can never touch them). -/
def UIInv (s : SimState) : Prop :=
  toolCount s.buttons = 1 ∧ drawCount s.buttons = 1 ∧
    ∀ i, 1 ≤ i → i ≤ 5 → (s.buttons i).isToggler = false

theorem setDown_ne_read (bs : Nat → TButton) (i : Nat) (v : Bool) (j : Nat)
    (h : j ≠ i) : setDown bs i v j = bs j := by
  simp [setDown, h]

theorem setDown_isToggler (bs : Nat → TButton) (i : Nat) (v : Bool) (j : Nat) :
    (setDown bs i v j).isToggler = (bs j).isToggler := by
  unfold setDown
  split_ifs with h
  · rw [h]
  · rfl

theorem toolCount_setDown (bs : Nat → TButton) (a : Nat) (v : Bool)
    (h1 : a ≠ 1) (h2 : a ≠ 2) (h3 : a ≠ 3) :
    toolCount (setDown bs a v) = toolCount bs := by
  unfold toolCount
  rw [setDown_ne_read _ _ _ _ (Ne.symm h1), setDown_ne_read _ _ _ _ (Ne.symm h2),
    setDown_ne_read _ _ _ _ (Ne.symm h3)]

theorem drawCount_setDown (bs : Nat → TButton) (a : Nat) (v : Bool)
    (h4 : a ≠ 4) (h5 : a ≠ 5) :
    drawCount (setDown bs a v) = drawCount bs := by
  unfold drawCount
  rw [setDown_ne_read _ _ _ _ (Ne.symm h4), setDown_ne_read _ _ _ _ (Ne.symm h5)]

theorem uiInv_of_buttons (s s' : SimState) (hb : s'.buttons = s.buttons)
    (h : UIInv s) : UIInv s' := by
  unfold UIInv at *
  rw [hb]
  exact h

theorem selectTool_ui (t : Nat) (ht : t = 1 ∨ t = 2 ∨ t = 3) (s : SimState)
    (h : UIInv s) : UIInv (selectTool t s) := by
  obtain ⟨h1, h2, h3⟩ := h
  refine ⟨?_, ?_, ?_⟩
  · rcases ht with rfl | rfl | rfl <;> simp [selectTool, toolCount, setDown]
  · show drawCount (setDown (setDown (setDown s.buttons 1 _) 2 _) 3 _) = 1
    rw [drawCount_setDown _ _ _ (by omega) (by omega),
      drawCount_setDown _ _ _ (by omega) (by omega),
      drawCount_setDown _ _ _ (by omega) (by omega)]
    exact h2
  · intro i hi1 hi5
    show (setDown (setDown (setDown s.buttons 1 _) 2 _) 3 _ i).isToggler = false
    rw [setDown_isToggler, setDown_isToggler, setDown_isToggler]
    exact h3 i hi1 hi5

theorem selectDrawMode_ui (m : DrawMode) (s : SimState) (h : UIInv s) :
    UIInv (selectDrawMode m s) := by
  obtain ⟨h1, h2, h3⟩ := h
  refine ⟨?_, ?_, ?_⟩
  · show toolCount (setDown (setDown s.buttons 4 _) 5 _) = 1
    rw [toolCount_setDown _ _ _ (by omega) (by omega) (by omega),
      toolCount_setDown _ _ _ (by omega) (by omega) (by omega)]
    exact h1
  · cases m <;> simp [selectDrawMode, drawCount, setDown]
  · intro i hi1 hi5
    show (setDown (setDown s.buttons 4 _) 5 _ i).isToggler = false
    rw [setDown_isToggler, setDown_isToggler]
    exact h3 i hi1 hi5

theorem toolClick_ui (s : SimState) (a : Nat) (h : UIInv s) :
    UIInv (toolClick s a) := by
  unfold toolClick
  split_ifs
  all_goals
    first
      | exact h
      | exact selectTool_ui _ (by norm_num) s h
      | exact selectDrawMode_ui _ s h

theorem actionDispatch_buttons (tag : Int) (s : SimState) :
    (actionDispatch tag s).buttons = s.buttons := by
  unfold actionDispatch
  split_ifs <;> rfl

theorem flash_ui (s : SimState) (a : Nat) (h : UIInv s)
    (htog : (s.buttons a).isToggler = true) :
    UIInv { actionDispatch (s.buttons a).tag s with
            buttons := setDown (actionDispatch (s.buttons a).tag s).buttons a false } := by
  have ha : ¬(1 ≤ a ∧ a ≤ 5) := by
    intro hc
    have := h.2.2 a hc.1 hc.2
    rw [this] at htog
    exact Bool.noConfusion htog
  obtain ⟨h1, h2, h3⟩ := h
  refine ⟨?_, ?_, ?_⟩
  · show toolCount (setDown (actionDispatch (s.buttons a).tag s).buttons a false) = 1
    rw [toolCount_setDown _ _ _ (by omega) (by omega) (by omega),
      actionDispatch_buttons]
    exact h1
  · show drawCount (setDown (actionDispatch (s.buttons a).tag s).buttons a false) = 1
    rw [drawCount_setDown _ _ _ (by omega) (by omega), actionDispatch_buttons]
    exact h2
  · intro i hi1 hi5
    show (setDown (actionDispatch (s.buttons a).tag s).buttons a false i).isToggler
      = false
    rw [setDown_isToggler, actionDispatch_buttons]
    exact h3 i hi1 hi5

theorem checkBtn_ui (s : SimState) (a : Nat) (h : UIInv s) :
    UIInv (checkBtn s a) := by
  unfold checkBtn
  dsimp only
  split_ifs with hc1 hc2 hc3
  · exact flash_ui (toolClick s a) a (toolClick_ui s a h) hc2.2.2.2
  · exact toolClick_ui s a h
  · exact flash_ui s a h hc3.2.2.2
  · exact h

theorem check_ui (s : SimState) (h : UIInv s) : UIInv (check s) := by
  unfold check
  exact foldl_inv UIInv _ _ (fun s' a _ hs' => checkBtn_ui s' a hs') s h

theorem rainPhase_buttons (rand : Nat → Nat) (s : SimState) :
    (rainPhase rand s).1.buttons = s.buttons := by
  unfold rainPhase
  split_ifs <;> rfl

theorem rightEdit_buttons (rand : Nat → Nat) (k : Nat) (s : SimState) :
    (rightEdit rand k s).buttons = s.buttons := by
  unfold rightEdit
  cases hm : s.game.eraser <;> simp only [hm]

theorem editPhase_buttons (rand : Nat → Nat) (k : Nat) (s : SimState) :
    (editPhase rand k s).buttons = s.buttons := by
  unfold editPhase
  dsimp only
  split_ifs <;> simp [rightEdit_buttons]

theorem drawPhase_buttons (s : SimState) : (drawPhase s).buttons = s.buttons := by
  unfold drawPhase
  dsimp only
  split_ifs <;> rfl

theorem simPhase_buttons (s : SimState) : (simPhase s).buttons = s.buttons := by
  unfold simPhase
  split_ifs <;> rfl

theorem update_buttons (inp : Inputs) (s : SimState) :
    (update inp s).buttons =
      (check { s with mouse := mouseUpdate inp.mx inp.my inp.btn s.mouse }).buttons := by
  unfold update
  dsimp only
  rw [simPhase_buttons]
  dsimp only
  split_ifs
  · rw [drawPhase_buttons, editPhase_buttons, rainPhase_buttons]
  · rw [editPhase_buttons, rainPhase_buttons]

theorem update_ui (inp : Inputs) (s : SimState) (h : UIInv s) :
    UIInv (update inp s) := by
  have h1 : UIInv (check { s with mouse := mouseUpdate inp.mx inp.my inp.btn s.mouse }) :=
    check_ui _ (uiInv_of_buttons s _ rfl h)
  exact uiInv_of_buttons _ _ (update_buttons inp s) h1

theorem initState_ui : UIInv initState := by
  refine ⟨by decide, by decide, ?_⟩
  intro i h1 h5
  interval_cases i <;> decide

/-- Every reachable state keeps the button invariant. -/
theorem run_ui (l : List Inputs) : UIInv (run l) := by
  unfold run
  exact foldl_inv UIInv _ _ (fun s inp _ hs => update_ui inp s hs) _ initState_ui

/-- The C8 scenario inputs: a left click on the pencil button (310, 30),
a release, then a left click on the eraser-water button (310, 70). -/
def scenC : List Inputs :=
  [⟨310, 30, 1, fun _ => 0⟩, ⟨310, 30, 0, fun _ => 0⟩, ⟨310, 70, 1, fun _ => 0⟩]

/-- C8: in every reachable state (hence after any tool click), exactly one
of the three tool buttons and exactly one of the two draw-mode buttons show
pressed; and after clicking the pencil button and then the eraser-water
button, the eraser mode is Water and the eraser-water button is the only
pressed one among the three. -/
theorem c8_tool_buttons_exclusive :
    (∀ l : List Inputs,
      toolCount (run l).buttons = 1 ∧ drawCount (run l).buttons = 1) ∧
    ((run scenC).game.eraser = EraserMode.water ∧
      ((run scenC).buttons 3).isDown = true ∧
      ((run scenC).buttons 1).isDown = false ∧
      ((run scenC).buttons 2).isDown = false) := by
  constructor
  · intro l
    exact ⟨(run_ui l).1, (run_ui l).2.1⟩
  · exact ⟨by decide, by decide, by decide, by decide⟩

end Slime
